import Mathlib

/-!
Verification development for the hn-herald repository.

The definitions below are a shallow embedding of the Python sources:
  - src/hn_herald/models/{story,article,summary,scoring,profile,digest}.py
  - src/hn_herald/services/{scoring,loader,llm}.py
  - src/hn_herald/graph/nodes/{filter,rank,format}.py

Python floats are modelled by rationals (ℚ), machine integers by Int/Nat,
strings used only as opaque data by String, and strings processed
character-by-character by List Char.  External collaborators (HTTP fetch,
HTML parsing via BeautifulSoup, urlparse, the LLM backend) are modelled as
oracle parameters; everything the repository itself computes is embedded.
-/

namespace HNHerald

/-! ## Python string primitives -/

/-- Python `\s` / `str.split()` whitespace class (ASCII part):
space, tab, newline, carriage return, vertical tab, form feed. -/
def pyIsSpace (c : Char) : Bool :=
  c = ' ' || c = '\t' || c = '\n' || c = '\r' || c = '\x0b' || c = '\x0c'

/-- Python `str.strip()` on a character list: drop whitespace from both ends. -/
def stripChars (l : List Char) : List Char :=
  ((l.dropWhile pyIsSpace).reverse.dropWhile pyIsSpace).reverse

/-- Python `str.strip()`. -/
def pyStrip (s : String) : String := ⟨stripChars s.data⟩

/-- Python `str.lower()`: lowercase every character. -/
def pyLower (s : String) : String := ⟨s.data.map Char.toLower⟩

/-! ## Data model (models/article.py, models/summary.py, models/scoring.py) -/

/-- models/article.py: `ExtractionStatus` enum. -/
inductive ExtractionStatus where
  | success
  | skipped
  | failed
  | paywalled
  | no_url
  | empty
deriving DecidableEq, Repr

/-- Python truthiness of an `Optional[str]`: `None` and `""` are falsy. -/
def optStrTruthy : Option String → Bool
  | none => false
  | some s => s != ""

/-- Python `a or b` on two `Optional[str]` values. -/
def pyOrStr (a b : Option String) : Option String :=
  if optStrTruthy a then a else b

/-- models/article.py: `Article` (the spec's ExtractedArticle). -/
structure Article where
  story_id : Int
  title : String
  url : Option String
  hn_url : String
  hn_score : Int
  hn_comments : Int
  author : String
  content : Option String
  word_count : Nat
  status : ExtractionStatus
  error_message : Option String
  domain : Option String
  hn_text : Option String
deriving DecidableEq, Repr

/-- models/article.py: `Article.has_content` computed field. -/
def Article.has_content (a : Article) : Bool :=
  optStrTruthy a.content || optStrTruthy a.hn_text

/-- models/article.py: `Article.display_content` computed field
(`self.content or self.hn_text`). -/
def Article.display_content (a : Article) : Option String :=
  pyOrStr a.content a.hn_text

/-- models/summary.py: `ArticleSummary` (LLM structured output). -/
structure ArticleSummary where
  summary : String
  key_points : List String
  tech_tags : List String
deriving DecidableEq, Repr

/-- models/summary.py: `SummarizationStatus` enum. -/
inductive SummarizationStatus where
  | success
  | no_content
  | api_error
  | parse_error
  | cached
deriving DecidableEq, Repr

/-- models/summary.py: `SummarizedArticle`. -/
structure SummarizedArticle where
  article : Article
  summary_data : Option ArticleSummary
  summarization_status : SummarizationStatus
  error_message : Option String
deriving DecidableEq, Repr

/-- models/summary.py: `SummarizedArticle.display_tags` computed field. -/
def SummarizedArticle.display_tags (s : SummarizedArticle) : List String :=
  match s.summary_data with
  | some d => d.tech_tags
  | none => []

/-- models/scoring.py: `RelevanceScore`. -/
structure RelevanceScore where
  score : ℚ
  reason : String
  matched_interest_tags : List String
  matched_disinterest_tags : List String
deriving DecidableEq, Repr

/-- models/scoring.py: `ScoredArticle`. -/
structure ScoredArticle where
  article : SummarizedArticle
  relevance : RelevanceScore
  popularity_score : ℚ
  final_score : ℚ
deriving DecidableEq, Repr

/-- models/scoring.py: `ScoredArticle.is_filtered` (`final_score < min_score`). -/
def ScoredArticle.isFiltered (s : ScoredArticle) (min_score : ℚ) : Bool :=
  s.final_score < min_score

/-- models/profile.py: `UserProfile` (the fields the scoring pipeline reads). -/
structure UserProfile where
  interest_tags : List String
  disinterest_tags : List String
  min_score : ℚ
  max_articles : Nat
deriving DecidableEq, Repr

/-- models/profile.py: `UserProfile.has_preferences`
(`bool(self.interest_tags or self.disinterest_tags)`). -/
def UserProfile.has_preferences (p : UserProfile) : Bool :=
  !p.interest_tags.isEmpty || !p.disinterest_tags.isEmpty

/-! ## Scoring service (services/scoring.py) -/

/-- services/scoring.py: class constant `NEUTRAL_SCORE = 0.5`. -/
def NEUTRAL_SCORE : ℚ := 1/2

/-- services/scoring.py: class constant `DISINTEREST_PENALTY_SCORE = 0.1`. -/
def DISINTEREST_PENALTY_SCORE : ℚ := 1/10

/-- services/scoring.py: class constant `MAX_HN_SCORE = 500`. -/
def MAX_HN_SCORE : Int := 500

/-- services/scoring.py: class constant `RELEVANCE_WEIGHT = 0.7`. -/
def RELEVANCE_WEIGHT : ℚ := 7/10

/-- services/scoring.py: class constant `POPULARITY_WEIGHT = 0.3`. -/
def POPULARITY_WEIGHT : ℚ := 3/10

/-- services/scoring.py: `ScoringService` instance state (profile plus the two
weights fixed in `__init__`). -/
structure ScoringService where
  profile : UserProfile
  relevance_weight : ℚ
  popularity_weight : ℚ
deriving DecidableEq, Repr

/-- services/scoring.py: `ScoringService._generate_reason`. -/
def generate_reason (matched_interest matched_disinterest : List String) : String :=
  if !matched_disinterest.isEmpty then
    "Contains avoided topics: " ++ String.intercalate ", " matched_disinterest
  else if !matched_interest.isEmpty then
    "Matches interests: " ++ String.intercalate ", " matched_interest
  else
    "No specific interest match"

/-- services/scoring.py line 218: `normalized_tags = {tag.lower() for tag in
article_tags}`.  The Python set is used only for membership tests, so it is
embedded as the lowercased list (same membership). -/
def normalizedTags (article_tags : List String) : List String :=
  article_tags.map pyLower

/-- services/scoring.py line 221: `matched_interest`. -/
def matchedInterest (svc : ScoringService) (article_tags : List String) :
    List String :=
  svc.profile.interest_tags.filter (fun t => (normalizedTags article_tags).contains t)

/-- services/scoring.py lines 222-224: `matched_disinterest`. -/
def matchedDisinterest (svc : ScoringService) (article_tags : List String) :
    List String :=
  svc.profile.disinterest_tags.filter (fun t => (normalizedTags article_tags).contains t)

/-- services/scoring.py: `ScoringService._calculate_relevance`. -/
def calculate_relevance (svc : ScoringService) (article_tags : List String) :
    RelevanceScore :=
  if article_tags.isEmpty then
    ⟨NEUTRAL_SCORE, "No tags to match", [], []⟩
  else if !svc.profile.has_preferences then
    ⟨NEUTRAL_SCORE, "No preferences configured", [], []⟩
  else
    let matched_interest := matchedInterest svc article_tags
    let matched_disinterest := matchedDisinterest svc article_tags
    let score : ℚ :=
      if !matched_disinterest.isEmpty then
        DISINTEREST_PENALTY_SCORE
      else if !matched_interest.isEmpty then
        let match_ratio : ℚ :=
          (matched_interest.length : ℚ) / (svc.profile.interest_tags.length : ℚ)
        NEUTRAL_SCORE + match_ratio * (1/2)
      else
        NEUTRAL_SCORE
    ⟨score, generate_reason matched_interest matched_disinterest,
      matched_interest, matched_disinterest⟩

/-- Python `min(x, xs...)` over a nonempty list, head + tail form. -/
def listMin (x : Int) (xs : List Int) : Int := xs.foldl min x

/-- Python `max(x, xs...)` over a nonempty list, head + tail form. -/
def listMax (x : Int) (xs : List Int) : Int := xs.foldl max x

/-- services/scoring.py: `ScoringService._normalize_popularity`.  The guard
`if all_scores and len(all_scores) > 1` (truthy and length at least 2) is
embedded as the `some (a :: b :: rest)` pattern; `None`, `[]` and singleton
batches all fall through to the absolute normalization. -/
def normalize_popularity (hn_score : Int) (all_scores : Option (List Int)) : ℚ :=
  match all_scores with
  | some (a :: b :: rest) =>
    let min_score := listMin a (b :: rest)
    let max_score := listMax a (b :: rest)
    if min_score < max_score then
      (((hn_score - min_score : Int)) : ℚ) / (((max_score - min_score : Int)) : ℚ)
    else
      1/2
  | _ => min ((hn_score : ℚ) / (MAX_HN_SCORE : ℚ)) 1

/-- services/scoring.py: `ScoringService.score_article`. -/
def score_article (svc : ScoringService) (article : SummarizedArticle)
    (all_hn_scores : Option (List Int)) : ScoredArticle :=
  let relevance := calculate_relevance svc article.display_tags
  let popularity_score := normalize_popularity article.article.hn_score all_hn_scores
  let final_score :=
    svc.relevance_weight * relevance.score + svc.popularity_weight * popularity_score
  ⟨article, relevance, popularity_score, final_score⟩

/-- Python `list.sort(key=lambda x: x.final_score, reverse=True)` /
`sorted(..., key=..., reverse=True)`: a stable sort in which ties keep
input order and larger keys come first. -/
def sortByFinalDesc (l : List ScoredArticle) : List ScoredArticle :=
  l.mergeSort (fun a b => decide (b.final_score ≤ a.final_score))

/-- The batch of HN scores `[a.article.hn_score for a in articles]` collected
by `score_articles`. -/
def batchScores (articles : List SummarizedArticle) : List Int :=
  articles.map (fun a => a.article.hn_score)

/-- The intermediate `scored` list built by `score_articles` before
filtering and sorting. -/
def scoredAll (svc : ScoringService) (articles : List SummarizedArticle) :
    List ScoredArticle :=
  articles.map (fun a => score_article svc a (some (batchScores articles)))

/-- services/scoring.py: `ScoringService.score_articles`. -/
def score_articles (svc : ScoringService) (articles : List SummarizedArticle)
    (filter_below_min : Bool) : List ScoredArticle :=
  if articles.isEmpty then []
  else
    let scored := scoredAll svc articles
    let scored :=
      if filter_below_min && decide (svc.profile.min_score > 0) then
        scored.filter (fun s => !(s.isFiltered svc.profile.min_score))
      else scored
    sortByFinalDesc scored

/-- graph/nodes/rank.py: `rank_articles`
(`sorted(scored, key=lambda x: x.final_score, reverse=True)`). -/
def rank_articles (scored : List ScoredArticle) : List ScoredArticle :=
  sortByFinalDesc scored

/-! ## Helper lemmas about `listMin` / `listMax` -/

theorem listMin_le_init (a : Int) (xs : List Int) : listMin a xs ≤ a := by
  induction xs generalizing a with
  | nil => exact le_refl a
  | cons y ys ih =>
    have h1 : listMin a (y :: ys) = listMin (min a y) ys := by simp [listMin]
    rw [h1]
    exact le_trans (ih (min a y)) (min_le_left a y)

theorem listMin_le_of_mem (a : Int) (xs : List Int) :
    ∀ x ∈ a :: xs, listMin a xs ≤ x := by
  intro x hx
  rcases List.mem_cons.mp hx with h | h
  · exact h ▸ listMin_le_init a xs
  · clear hx
    induction xs generalizing a with
    | nil => cases h
    | cons y ys ih =>
      have h1 : listMin a (y :: ys) = listMin (min a y) ys := by simp [listMin]
      rw [h1]
      rcases List.mem_cons.mp h with h2 | h2
      · subst h2
        exact le_trans (listMin_le_init (min a x) ys) (min_le_right a x)
      · exact ih (min a y) h2

theorem init_le_listMax (a : Int) (xs : List Int) : a ≤ listMax a xs := by
  induction xs generalizing a with
  | nil => exact le_refl a
  | cons y ys ih =>
    have h1 : listMax a (y :: ys) = listMax (max a y) ys := by simp [listMax]
    rw [h1]
    exact le_trans (le_max_left a y) (ih (max a y))

theorem le_listMax_of_mem (a : Int) (xs : List Int) :
    ∀ x ∈ a :: xs, x ≤ listMax a xs := by
  intro x hx
  rcases List.mem_cons.mp hx with h | h
  · exact h ▸ init_le_listMax a xs
  · clear hx
    induction xs generalizing a with
    | nil => cases h
    | cons y ys ih =>
      have h1 : listMax a (y :: ys) = listMax (max a y) ys := by simp [listMax]
      rw [h1]
      rcases List.mem_cons.mp h with h2 | h2
      · subst h2
        exact le_trans (le_max_right a x) (init_le_listMax (max a x) ys)
      · exact ih (max a y) h2

theorem listMin_mem (a : Int) (xs : List Int) : listMin a xs ∈ a :: xs := by
  induction xs generalizing a with
  | nil => simp [listMin]
  | cons y ys ih =>
    have h1 : listMin a (y :: ys) = listMin (min a y) ys := by simp [listMin]
    rw [h1]
    rcases List.mem_cons.mp (ih (min a y)) with h | h
    · rcases min_cases a y with ⟨he, _⟩ | ⟨he, _⟩
      · rw [h, he]; exact List.mem_cons_self _ _
      · rw [h, he]; exact List.mem_cons_of_mem _ (List.mem_cons_self _ _)
    · exact List.mem_cons_of_mem _ (List.mem_cons_of_mem _ h)

theorem listMax_mem (a : Int) (xs : List Int) : listMax a xs ∈ a :: xs := by
  induction xs generalizing a with
  | nil => simp [listMax]
  | cons y ys ih =>
    have h1 : listMax a (y :: ys) = listMax (max a y) ys := by simp [listMax]
    rw [h1]
    rcases List.mem_cons.mp (ih (max a y)) with h | h
    · rcases max_cases a y with ⟨he, _⟩ | ⟨he, _⟩
      · rw [h, he]; exact List.mem_cons_self _ _
      · rw [h, he]; exact List.mem_cons_of_mem _ (List.mem_cons_self _ _)
    · exact List.mem_cons_of_mem _ (List.mem_cons_of_mem _ h)

/-! ## Relevance lemmas and claims C1-C3 -/

theorem calculate_relevance_main (svc : ScoringService) (tags : List String)
    (hne : tags ≠ []) (hp : svc.profile.has_preferences = true) :
    calculate_relevance svc tags =
      ⟨if !(matchedDisinterest svc tags).isEmpty then DISINTEREST_PENALTY_SCORE
        else if !(matchedInterest svc tags).isEmpty then
          NEUTRAL_SCORE +
            ((matchedInterest svc tags).length : ℚ) /
              (svc.profile.interest_tags.length : ℚ) * (1/2)
        else NEUTRAL_SCORE,
       generate_reason (matchedInterest svc tags) (matchedDisinterest svc tags),
       matchedInterest svc tags, matchedDisinterest svc tags⟩ := by
  have h1 : tags.isEmpty = false := by simp [List.isEmpty_iff, hne]
  simp [calculate_relevance, h1, hp]

/-- C1: for every user profile and every non-empty article tag list, if at
least one profile disinterest tag occurs in the lowercased article tags, then
`_calculate_relevance` returns score exactly 0.1 = 1/10 (regardless of
interest matches, which are unconstrained here), and the matched disinterest
tags are reported in the result. -/
theorem c1_disinterest_dominance (svc : ScoringService) (article_tags : List String)
    (hne : article_tags ≠ []) (d : String)
    (hd : d ∈ svc.profile.disinterest_tags)
    (hmatch : d ∈ normalizedTags article_tags) :
    (calculate_relevance svc article_tags).score = 1/10 ∧
    (calculate_relevance svc article_tags).matched_disinterest_tags =
      matchedDisinterest svc article_tags ∧
    d ∈ (calculate_relevance svc article_tags).matched_disinterest_tags := by
  have hDmem : d ∈ matchedDisinterest svc article_tags := by
    refine List.mem_filter.mpr ⟨hd, ?_⟩
    simpa using hmatch
  have hD : (matchedDisinterest svc article_tags).isEmpty = false :=
    List.isEmpty_eq_false.mpr (List.ne_nil_of_mem hDmem)
  have hp : svc.profile.has_preferences = true := by
    have h2 : svc.profile.disinterest_tags.isEmpty = false :=
      List.isEmpty_eq_false.mpr (List.ne_nil_of_mem hd)
    simp [UserProfile.has_preferences, h2]
  rw [calculate_relevance_main svc article_tags hne hp]
  refine ⟨?_, rfl, hDmem⟩
  simp [hD, DISINTEREST_PENALTY_SCORE]

/-- Example profile used by witnesses (spec scenarios 1 and 2). -/
def profileEx : UserProfile := ⟨["python", "ai", "rust"], ["crypto"], 0, 10⟩

/-- Example scoring service with default weights. -/
def svcEx : ScoringService := ⟨profileEx, RELEVANCE_WEIGHT, POPULARITY_WEIGHT⟩

/-- Witness for C1 (spec scenario 2: tags ["crypto","python"], disinterest
wins over the simultaneous python interest match). -/
theorem c1_disinterest_dominance_witness :
    (calculate_relevance svcEx ["crypto", "python"]).score = 1/10 ∧
    (calculate_relevance svcEx ["crypto", "python"]).matched_disinterest_tags =
      matchedDisinterest svcEx ["crypto", "python"] ∧
    "crypto" ∈ (calculate_relevance svcEx ["crypto", "python"]).matched_disinterest_tags :=
  c1_disinterest_dominance svcEx ["crypto", "python"] (by decide) "crypto"
    (by simp [svcEx, profileEx]) (by decide)

/-- In the tag-matching branch with no disinterest match, the relevance score
follows the interpolation formula, including the zero-match case (where the
`else` branch value 0.5 coincides with the formula at ratio 0). -/
theorem relevance_score_formula (svc : ScoringService) (tags : List String)
    (hne : tags ≠ []) (hI : svc.profile.interest_tags ≠ [])
    (hnoD : matchedDisinterest svc tags = []) :
    (calculate_relevance svc tags).score =
      NEUTRAL_SCORE + ((matchedInterest svc tags).length : ℚ) /
        (svc.profile.interest_tags.length : ℚ) * (1/2) := by
  have hp : svc.profile.has_preferences = true := by
    simp [UserProfile.has_preferences, List.isEmpty_eq_false.mpr hI]
  rw [calculate_relevance_main svc tags hne hp]
  by_cases hMI : matchedInterest svc tags = []
  · simp [hnoD, hMI, NEUTRAL_SCORE]
  · simp [hnoD, List.isEmpty_eq_false.mpr hMI]

/-- C2: with at least one interest tag on the profile, a non-empty article tag
list, no disinterest match and at least one interest match, the relevance
score is `0.5 + (|matchedInterest| / |interestTags|) * 0.5`; it is exactly 1
when every profile interest tag matches; and with no disinterest match the
score never decreases as the number of matched interest tags increases. -/
theorem c2_interest_interpolation (svc : ScoringService)
    (hI : svc.profile.interest_tags ≠ []) :
    (∀ tags, tags ≠ [] → matchedDisinterest svc tags = [] →
      matchedInterest svc tags ≠ [] →
      (calculate_relevance svc tags).score =
        1/2 + ((matchedInterest svc tags).length : ℚ) /
          (svc.profile.interest_tags.length : ℚ) * (1/2)) ∧
    (∀ tags, tags ≠ [] → matchedDisinterest svc tags = [] →
      matchedInterest svc tags = svc.profile.interest_tags →
      (calculate_relevance svc tags).score = 1) ∧
    (∀ t1 t2, t1 ≠ [] → t2 ≠ [] →
      matchedDisinterest svc t1 = [] → matchedDisinterest svc t2 = [] →
      (matchedInterest svc t1).length ≤ (matchedInterest svc t2).length →
      (calculate_relevance svc t1).score ≤ (calculate_relevance svc t2).score) := by
  have hn0 : (0 : ℚ) < (svc.profile.interest_tags.length : ℚ) := by
    have : svc.profile.interest_tags.length ≠ 0 := by
      simpa [List.length_eq_zero] using hI
    exact_mod_cast Nat.pos_of_ne_zero this
  refine ⟨?_, ?_, ?_⟩
  · intro tags hne hnoD _
    simpa [NEUTRAL_SCORE] using relevance_score_formula svc tags hne hI hnoD
  · intro tags hne hnoD hall
    rw [relevance_score_formula svc tags hne hI hnoD, hall,
      div_self (ne_of_gt hn0)]
    norm_num [NEUTRAL_SCORE]
  · intro t1 t2 hne1 hne2 hnoD1 hnoD2 hk
    rw [relevance_score_formula svc t1 hne1 hI hnoD1,
      relevance_score_formula svc t2 hne2 hI hnoD2]
    have hdiv : ((matchedInterest svc t1).length : ℚ) /
        (svc.profile.interest_tags.length : ℚ) ≤
        ((matchedInterest svc t2).length : ℚ) /
        (svc.profile.interest_tags.length : ℚ) :=
      (div_le_div_iff_of_pos_right hn0).mpr (by exact_mod_cast hk)
    nlinarith [hdiv]

/-- Witness for C2 (spec scenario 1: all three interest tags match, score 1;
and the formula / monotonicity instantiated on the same profile). -/
theorem c2_interest_interpolation_witness :
    (calculate_relevance svcEx ["python", "ai", "rust"]).score = 1 ∧
    (calculate_relevance svcEx ["python"]).score = 1/2 + (1 : ℚ) / 3 * (1/2) ∧
    (calculate_relevance svcEx ["python"]).score ≤
      (calculate_relevance svcEx ["python", "ai", "rust"]).score := by
  have h := c2_interest_interpolation svcEx (by decide)
  refine ⟨h.2.1 ["python", "ai", "rust"] (by decide) (by decide) (by decide), ?_, ?_⟩
  · have hf := h.1 ["python"] (by decide) (by decide) (by decide)
    have hm : matchedInterest svcEx ["python"] = ["python"] := by decide
    have hlen : svcEx.profile.interest_tags.length = 3 := by decide
    rw [hf, hm, hlen]
    norm_num
  · exact h.2.2 ["python"] ["python", "ai", "rust"] (by decide) (by decide)
      (by decide) (by decide) (by decide)

/-- C3: `_normalize_popularity` behaviour.  With a batch of at least two
scores it is min-max normalization `(score - min) / (max - min)`; with a batch
of at least two all-equal scores it is exactly 0.5; with no batch, an empty
batch or a single-score batch it is `min(hnScore / 500, 1.0)`, the absolute
normalization against the default ceiling `MAX_HN_SCORE = 500`. -/
theorem c3_normalize_popularity (hn a b : Int) (rest : List Int) :
    (listMin a (b :: rest) < listMax a (b :: rest) →
      normalize_popularity hn (some (a :: b :: rest)) =
        ((hn : ℚ) - (listMin a (b :: rest) : ℚ)) /
          ((listMax a (b :: rest) : ℚ) - (listMin a (b :: rest) : ℚ))) ∧
    ((∀ x ∈ a :: b :: rest, x = a) →
      normalize_popularity hn (some (a :: b :: rest)) = 1/2) ∧
    (normalize_popularity hn none = min ((hn : ℚ) / 500) 1 ∧
      normalize_popularity hn (some []) = min ((hn : ℚ) / 500) 1 ∧
      ∀ x : Int, normalize_popularity hn (some [x]) = min ((hn : ℚ) / 500) 1) ∧
    MAX_HN_SCORE = 500 := by
  refine ⟨?_, ?_, ⟨rfl, rfl, fun x => rfl⟩, rfl⟩
  · intro hlt
    simp only [normalize_popularity, if_pos hlt]
    push_cast
    ring_nf
  · intro hall
    have hmin : listMin a (b :: rest) = a := by
      have h1 := listMin_mem a (b :: rest)
      have h2 := hall _ h1
      exact h2
    have hmax : listMax a (b :: rest) = a := by
      have h1 := listMax_mem a (b :: rest)
      exact hall _ h1
    simp only [normalize_popularity, hmin, hmax]
    simp

/-- Witness for C3 (spec scenario 3: batch [100, 200, 300] with score 200
gives (200-100)/(300-100); all-equal batch [7, 7]; and score 250 with no
batch gives min(250/500, 1)). -/
theorem c3_normalize_popularity_witness :
    normalize_popularity 200 (some [100, 200, 300]) =
      ((200 : ℚ) - (100 : ℚ)) / ((300 : ℚ) - (100 : ℚ)) ∧
    normalize_popularity 7 (some [7, 7]) = 1/2 ∧
    normalize_popularity 250 none = min ((250 : ℚ) / 500) 1 := by
  have h1 := c3_normalize_popularity 200 100 200 [300]
  have h2 := c3_normalize_popularity 7 7 7 []
  have h3 := c3_normalize_popularity 250 0 0 []
  refine ⟨?_, h2.2.1 (by decide), ?_⟩
  · have hmin : listMin 100 [200, 300] = 100 := by decide
    have hmax : listMax 100 [200, 300] = 300 := by decide
    have h5 := h1.1 (by decide)
    rw [h5, hmin, hmax]
    norm_num
  · have h4 := h3.2.2.1.1
    have h6 : ((250 : Int) : ℚ) = (250 : ℚ) := by norm_num
    rwa [h6] at h4

/-! ## Bounds lemmas and claim C4 -/

theorem relevance_score_bounds (svc : ScoringService) (tags : List String) :
    0 ≤ (calculate_relevance svc tags).score ∧
    (calculate_relevance svc tags).score ≤ 1 := by
  unfold calculate_relevance
  split
  · norm_num [NEUTRAL_SCORE]
  · split
    · norm_num [NEUTRAL_SCORE]
    · simp only
      split
      · norm_num [DISINTEREST_PENALTY_SCORE]
      · split
        next hMI =>
          have hI : svc.profile.interest_tags ≠ [] := by
            intro hcon
            simp [matchedInterest, hcon] at hMI
          have hn0 : (0 : ℚ) < (svc.profile.interest_tags.length : ℚ) := by
            have hne : svc.profile.interest_tags.length ≠ 0 := by
              simpa [List.length_eq_zero] using hI
            exact_mod_cast Nat.pos_of_ne_zero hne
          have hk : ((matchedInterest svc tags).length : ℚ) ≤
              (svc.profile.interest_tags.length : ℚ) := by
            exact_mod_cast List.length_filter_le _ _
          have hratio0 : 0 ≤ ((matchedInterest svc tags).length : ℚ) /
              (svc.profile.interest_tags.length : ℚ) :=
            div_nonneg (by positivity) (le_of_lt hn0)
          have hratio1 : ((matchedInterest svc tags).length : ℚ) /
              (svc.profile.interest_tags.length : ℚ) ≤ 1 :=
            (div_le_one hn0).mpr hk
          constructor
          · simp only [NEUTRAL_SCORE]
            nlinarith
          · simp only [NEUTRAL_SCORE]
            nlinarith
        · norm_num [NEUTRAL_SCORE]

theorem normalize_popularity_bounds (hn : Int) (all : Option (List Int))
    (hmem : ∀ l, all = some l → hn ∈ l) (hnn : 0 ≤ hn) :
    0 ≤ normalize_popularity hn all ∧ normalize_popularity hn all ≤ 1 := by
  have habs : 0 ≤ min ((hn : ℚ) / (MAX_HN_SCORE : ℚ)) 1 ∧
      min ((hn : ℚ) / (MAX_HN_SCORE : ℚ)) 1 ≤ 1 := by
    constructor
    · apply le_min
      · apply div_nonneg
        · exact_mod_cast hnn
        · norm_num [MAX_HN_SCORE]
      · norm_num
    · exact min_le_right _ _
  match all with
  | none => exact habs
  | some [] => exact habs
  | some [x] => exact habs
  | some (a :: b :: rest) =>
    have hm : hn ∈ a :: b :: rest := hmem _ rfl
    have hlo : listMin a (b :: rest) ≤ hn := listMin_le_of_mem a (b :: rest) hn hm
    have hhi : hn ≤ listMax a (b :: rest) := le_listMax_of_mem a (b :: rest) hn hm
    have heq : normalize_popularity hn (some (a :: b :: rest)) =
        if listMin a (b :: rest) < listMax a (b :: rest) then
          (((hn - listMin a (b :: rest) : Int)) : ℚ) /
            (((listMax a (b :: rest) - listMin a (b :: rest) : Int)) : ℚ)
        else 1/2 := rfl
    rw [heq]
    by_cases hlt : listMin a (b :: rest) < listMax a (b :: rest)
    · rw [if_pos hlt]
      have hden : (0 : ℚ) < ((listMax a (b :: rest) - listMin a (b :: rest) : Int) : ℚ) := by
        exact_mod_cast Int.sub_pos.mpr hlt
      constructor
      · apply div_nonneg ?_ (le_of_lt hden)
        have h7 : (0 : Int) ≤ hn - listMin a (b :: rest) := by omega
        exact_mod_cast h7
      · rw [div_le_one hden]
        have h8 : (hn - listMin a (b :: rest) : Int) ≤
            (listMax a (b :: rest) - listMin a (b :: rest) : Int) := by omega
        exact_mod_cast h8
    · rw [if_neg hlt]
      norm_num

theorem sortByFinalDesc_perm (l : List ScoredArticle) :
    (sortByFinalDesc l).Perm l :=
  List.mergeSort_perm l _

/-- Output membership of `score_articles`: every result element is the
`score_article` of some input article against the whole batch. -/
theorem mem_score_articles (svc : ScoringService) (articles : List SummarizedArticle)
    (fb : Bool) (s : ScoredArticle) (hs : s ∈ score_articles svc articles fb) :
    ∃ a ∈ articles, s = score_article svc a (some (batchScores articles)) := by
  unfold score_articles at hs
  split at hs
  · cases hs
  · have hs2 := (sortByFinalDesc_perm _).mem_iff.mp hs
    have hs3 : s ∈ scoredAll svc articles := by
      revert hs2
      split
      · intro hs2
        exact (List.mem_filter.mp hs2).1
      · intro hs2
        exact hs2
    rcases List.mem_map.mp hs3 with ⟨a, ha, rfl⟩
    exact ⟨a, ha, rfl⟩

/-- C4: every ScoredArticle produced by `score_articles` (with non-negative
HN scores on the inputs and non-negative weights summing to at most 1) has
relevance score, popularity score and final score all in [0, 1]. -/
theorem c4_score_bounds (svc : ScoringService) (articles : List SummarizedArticle)
    (fb : Bool)
    (hwr : 0 ≤ svc.relevance_weight) (hwp : 0 ≤ svc.popularity_weight)
    (hsum : svc.relevance_weight + svc.popularity_weight ≤ 1)
    (hhn : ∀ a ∈ articles, 0 ≤ a.article.hn_score)
    (s : ScoredArticle) (hs : s ∈ score_articles svc articles fb) :
    (0 ≤ s.relevance.score ∧ s.relevance.score ≤ 1) ∧
    (0 ≤ s.popularity_score ∧ s.popularity_score ≤ 1) ∧
    (0 ≤ s.final_score ∧ s.final_score ≤ 1) := by
  rcases mem_score_articles svc articles fb s hs with ⟨a, ha, rfl⟩
  have hr := relevance_score_bounds svc a.display_tags
  have hmem : ∀ l, some (batchScores articles) = some l → a.article.hn_score ∈ l := by
    intro l hl
    injection hl with hl
    subst hl
    exact List.mem_map.mpr ⟨a, ha, rfl⟩
  have hp := normalize_popularity_bounds a.article.hn_score
    (some (batchScores articles)) hmem (hhn a ha)
  refine ⟨hr, hp, ?_, ?_⟩
  · simp only [score_article]
    nlinarith [hr.1, hr.2, hp.1, hp.2]
  · simp only [score_article]
    nlinarith [hr.1, hr.2, hp.1, hp.2]

/-- Concrete article used by witnesses. -/
def articleEx : Article :=
  ⟨1, "Example", some "https://example.com/a", "https://news.ycombinator.com/item?id=1",
    100, 10, "alice", some "Body text of the article.", 5,
    ExtractionStatus.success, none, some "example.com", none⟩

/-- Concrete LLM summary used by witnesses. -/
def summaryEx : ArticleSummary :=
  ⟨"A sufficiently long summary of the article.", ["one point"], ["python"]⟩

/-- Concrete summarized article used by witnesses. -/
def sumArticleEx : SummarizedArticle :=
  ⟨articleEx, some summaryEx, SummarizationStatus.success, none⟩

/-- Witness for C4 at a concrete one-article batch. -/
theorem c4_score_bounds_witness :
    (0 ≤ (score_article svcEx sumArticleEx (some (batchScores [sumArticleEx]))).relevance.score ∧
      (score_article svcEx sumArticleEx (some (batchScores [sumArticleEx]))).relevance.score ≤ 1) ∧
    (0 ≤ (score_article svcEx sumArticleEx (some (batchScores [sumArticleEx]))).popularity_score ∧
      (score_article svcEx sumArticleEx (some (batchScores [sumArticleEx]))).popularity_score ≤ 1) ∧
    (0 ≤ (score_article svcEx sumArticleEx (some (batchScores [sumArticleEx]))).final_score ∧
      (score_article svcEx sumArticleEx (some (batchScores [sumArticleEx]))).final_score ≤ 1) :=
  c4_score_bounds svcEx [sumArticleEx] true (by norm_num [svcEx, RELEVANCE_WEIGHT])
    (by norm_num [svcEx, POPULARITY_WEIGHT])
    (by norm_num [svcEx, RELEVANCE_WEIGHT, POPULARITY_WEIGHT])
    (by decide)
    (score_article svcEx sumArticleEx (some (batchScores [sumArticleEx])))
    (by
      have h1 : score_articles svcEx [sumArticleEx] true =
          sortByFinalDesc (scoredAll svcEx [sumArticleEx]) := by
        simp [score_articles, svcEx, profileEx]
      rw [h1]
      apply (sortByFinalDesc_perm _).mem_iff.mpr
      simp [scoredAll])

/-! ## Sorting lemmas and claim C5 -/

theorem finalDescLe_trans (a b c : ScoredArticle)
    (hab : decide (b.final_score ≤ a.final_score) = true)
    (hbc : decide (c.final_score ≤ b.final_score) = true) :
    decide (c.final_score ≤ a.final_score) = true := by
  simp only [decide_eq_true_eq] at *
  exact le_trans hbc hab

theorem finalDescLe_total (a b : ScoredArticle) :
    (decide (b.final_score ≤ a.final_score) ||
      decide (a.final_score ≤ b.final_score)) = true := by
  rcases le_total b.final_score a.final_score with h | h <;> simp [h]

theorem sortByFinalDesc_sorted (l : List ScoredArticle) :
    (sortByFinalDesc l).Pairwise (fun s t => t.final_score ≤ s.final_score) := by
  have h := @List.sorted_mergeSort ScoredArticle
    (fun a b : ScoredArticle => decide (b.final_score ≤ a.final_score))
    finalDescLe_trans finalDescLe_total l
  exact h.imp (fun hab => of_decide_eq_true hab)

/-- Stability of the descending sort: the elements with any fixed final
score appear in the output exactly in their input order. -/
theorem sortByFinalDesc_filter_eq (l : List ScoredArticle) (v : ℚ) :
    (sortByFinalDesc l).filter (fun s => decide (s.final_score = v)) =
      l.filter (fun s => decide (s.final_score = v)) := by
  set p : ScoredArticle → Bool := fun s => decide (s.final_score = v) with hp
  have hpair : (l.filter p).Pairwise
      (fun a b : ScoredArticle => decide (b.final_score ≤ a.final_score) = true) := by
    apply List.pairwise_of_forall_mem_list
    intro a ha b hb
    have ha2 : a.final_score = v := by
      have := (List.mem_filter.mp ha).2
      simpa [hp] using this
    have hb2 : b.final_score = v := by
      have := (List.mem_filter.mp hb).2
      simpa [hp] using this
    simp [ha2, hb2]
  have hsub : (l.filter p).Sublist (sortByFinalDesc l) :=
    List.sublist_mergeSort finalDescLe_trans finalDescLe_total hpair (List.filter_sublist l)
  have hsub2 : (l.filter p).Sublist ((sortByFinalDesc l).filter p) := by
    have h1 := hsub.filter p
    simpa using h1
  have hlen : ((sortByFinalDesc l).filter p).length = (l.filter p).length :=
    ((List.mergeSort_perm l _).filter p).length_eq
  exact (hsub2.eq_of_length hlen.symm).symm

theorem scoredAll_final_nonneg (svc : ScoringService) (articles : List SummarizedArticle)
    (hwr : 0 ≤ svc.relevance_weight) (hwp : 0 ≤ svc.popularity_weight)
    (hhn : ∀ a ∈ articles, 0 ≤ a.article.hn_score)
    (s : ScoredArticle) (hs : s ∈ scoredAll svc articles) : 0 ≤ s.final_score := by
  rcases List.mem_map.mp hs with ⟨a, ha, rfl⟩
  have hr := relevance_score_bounds svc a.display_tags
  have hmem : ∀ l, some (batchScores articles) = some l → a.article.hn_score ∈ l := by
    intro l hl
    injection hl with hl
    subst hl
    exact List.mem_map.mpr ⟨a, ha, rfl⟩
  have hpop := normalize_popularity_bounds a.article.hn_score
    (some (batchScores articles)) hmem (hhn a ha)
  simp only [score_article]
  nlinarith [hr.1, hpop.1]

/-- C5: `score_articles` returns the scored articles sorted by final score
descending; with filtering enabled an article is in the output iff it is one
of the batch-scored articles and its final score is not below
`profile.min_score`; ties keep their input order (stable sort); and the rank
stage's sort is likewise descending and stable.  Determinism is definitional:
both are pure functions of their inputs. -/
theorem c5_sort_filter_stability (svc : ScoringService)
    (articles : List SummarizedArticle)
    (hwr : 0 ≤ svc.relevance_weight) (hwp : 0 ≤ svc.popularity_weight)
    (hmin : 0 ≤ svc.profile.min_score)
    (hhn : ∀ a ∈ articles, 0 ≤ a.article.hn_score) :
    (score_articles svc articles true).Pairwise
      (fun s t => t.final_score ≤ s.final_score) ∧
    (∀ s, s ∈ score_articles svc articles true ↔
      s ∈ scoredAll svc articles ∧ ¬(s.final_score < svc.profile.min_score)) ∧
    (∀ v : ℚ, (score_articles svc articles true).filter
        (fun s => decide (s.final_score = v)) =
      (scoredAll svc articles).filter
        (fun s => (!(s.isFiltered svc.profile.min_score)) &&
          decide (s.final_score = v))) ∧
    (∀ l : List ScoredArticle,
      (rank_articles l).Pairwise (fun s t => t.final_score ≤ s.final_score)) ∧
    (∀ (l : List ScoredArticle) (v : ℚ),
      (rank_articles l).filter (fun s => decide (s.final_score = v)) =
        l.filter (fun s => decide (s.final_score = v))) := by
  have hkeep : ∀ s ∈ scoredAll svc articles,
      (!(s.isFiltered svc.profile.min_score)) = true ∨
        0 < svc.profile.min_score := by
    intro s hs
    by_cases hgt : 0 < svc.profile.min_score
    · exact Or.inr hgt
    · left
      have h0 : svc.profile.min_score = 0 := le_antisymm (not_lt.mp hgt) hmin
      have hnn := scoredAll_final_nonneg svc articles hwr hwp hhn s hs
      simp [ScoredArticle.isFiltered, h0, not_lt.mpr hnn]
  by_cases hemp : articles.isEmpty
  · have he : articles = [] := List.isEmpty_iff.mp hemp
    subst he
    refine ⟨?_, ?_, ?_, ?_, ?_⟩
    · simp [score_articles]
    · intro s
      simp [score_articles, scoredAll, batchScores]
    · intro v
      simp [score_articles, scoredAll, batchScores]
    · intro l
      exact sortByFinalDesc_sorted l
    · intro l v
      exact sortByFinalDesc_filter_eq l v
  · have hout : score_articles svc articles true =
        sortByFinalDesc (if true && decide (svc.profile.min_score > 0) then
          (scoredAll svc articles).filter
            (fun s => !(s.isFiltered svc.profile.min_score))
        else scoredAll svc articles) := by
      simp only [score_articles, hemp]
      rfl
    refine ⟨?_, ?_, ?_, fun l => sortByFinalDesc_sorted l,
      fun l v => sortByFinalDesc_filter_eq l v⟩
    · rw [hout]
      exact sortByFinalDesc_sorted _
    · intro s
      rw [hout]
      by_cases hgt : 0 < svc.profile.min_score
      · have hc : (true && decide (svc.profile.min_score > 0)) = true := by simp [hgt]
        rw [if_pos hc]
        rw [(sortByFinalDesc_perm _).mem_iff]
        rw [List.mem_filter]
        constructor
        · rintro ⟨h1, h2⟩
          refine ⟨h1, ?_⟩
          simpa [ScoredArticle.isFiltered] using h2
        · rintro ⟨h1, h2⟩
          refine ⟨h1, ?_⟩
          simpa [ScoredArticle.isFiltered] using h2
      · have hc : ¬((true && decide (svc.profile.min_score > 0)) = true) := by simp [hgt]
        rw [if_neg hc]
        rw [(sortByFinalDesc_perm _).mem_iff]
        constructor
        · intro h1
          refine ⟨h1, ?_⟩
          rcases hkeep s h1 with hk | hk
          · have h0 : svc.profile.min_score = 0 :=
              le_antisymm (not_lt.mp hgt) hmin
            have hnn := scoredAll_final_nonneg svc articles hwr hwp hhn s h1
            rw [h0]
            exact not_lt.mpr hnn
          · exact absurd hk hgt
        · exact fun h => h.1
    · intro v
      rw [hout]
      by_cases hgt : 0 < svc.profile.min_score
      · have hc : (true && decide (svc.profile.min_score > 0)) = true := by simp [hgt]
        rw [if_pos hc]
        rw [sortByFinalDesc_filter_eq, List.filter_filter]
        apply List.filter_congr
        intro s hs
        rw [Bool.and_comm]
      · have hc : ¬((true && decide (svc.profile.min_score > 0)) = true) := by simp [hgt]
        rw [if_neg hc]
        rw [sortByFinalDesc_filter_eq]
        apply List.filter_congr
        intro s hs
        rcases hkeep s hs with hk | hk
        · rw [hk, Bool.true_and]
        · exact absurd hk hgt

/-- Witness for C5 at a concrete one-article batch (and the rank stage at a
concrete list). -/
theorem c5_sort_filter_stability_witness :
    (score_articles svcEx [sumArticleEx] true).Pairwise
      (fun s t => t.final_score ≤ s.final_score) ∧
    (score_article svcEx sumArticleEx (some (batchScores [sumArticleEx])) ∈
        score_articles svcEx [sumArticleEx] true ↔
      score_article svcEx sumArticleEx (some (batchScores [sumArticleEx])) ∈
          scoredAll svcEx [sumArticleEx] ∧
        ¬((score_article svcEx sumArticleEx
            (some (batchScores [sumArticleEx]))).final_score <
          svcEx.profile.min_score)) ∧
    (score_articles svcEx [sumArticleEx] true).filter
        (fun s => decide (s.final_score = 0)) =
      (scoredAll svcEx [sumArticleEx]).filter
        (fun s => (!(s.isFiltered svcEx.profile.min_score)) &&
          decide (s.final_score = 0)) ∧
    (rank_articles []).Pairwise
      (fun s t : ScoredArticle => t.final_score ≤ s.final_score) ∧
    (rank_articles []).filter (fun s : ScoredArticle => decide (s.final_score = 0)) =
      List.filter (fun s : ScoredArticle => decide (s.final_score = 0)) [] := by
  have h := c5_sort_filter_stability svcEx [sumArticleEx]
    (by norm_num [svcEx, RELEVANCE_WEIGHT])
    (by norm_num [svcEx, POPULARITY_WEIGHT])
    (by norm_num [svcEx, profileEx])
    (by decide)
  exact ⟨h.1, h.2.1 _, h.2.2.1 0, h.2.2.2.1 [], h.2.2.2.2 [] 0⟩

/-! ## Profile construction (models/profile.py) and claim C9 -/

/-- models/profile.py: `normalize_tags` field validator: strip and lowercase
each tag, drop empties, deduplicate preserving first-occurrence order (the
Python `seen` set always holds exactly the members of `result`). -/
def normalize_tags (v : List String) : List String :=
  v.foldl (fun result tag =>
    let normalized := pyLower (pyStrip tag)
    if normalized ≠ "" ∧ normalized ∉ result then result ++ [normalized]
    else result) []

/-- models/profile.py: pydantic construction of a `UserProfile`: field
validators first (range checks on `min_score` and `max_articles`, tag
normalization), then the `validate_no_tag_overlap` model validator, which
errors iff both normalized lists are non-empty and intersect. -/
def mkUserProfile (interest_tags disinterest_tags : List String) (min_score : ℚ)
    (max_articles : Nat) : Except String UserProfile :=
  if ¬(0 ≤ min_score ∧ min_score ≤ 1) then
    Except.error "min_score out of range"
  else if ¬(1 ≤ max_articles ∧ max_articles ≤ 100) then
    Except.error "max_articles out of range"
  else
    let it := normalize_tags interest_tags
    let dt := normalize_tags disinterest_tags
    if it ≠ [] ∧ dt ≠ [] ∧ it.filter (fun t => dt.contains t) ≠ [] then
      Except.error "Tags cannot be in both interest and disinterest lists"
    else
      Except.ok ⟨it, dt, min_score, max_articles⟩

/-- C9: constructing a UserProfile whose interest and disinterest tag lists
share a tag after normalization fails validation: the concrete construction
`interest=["Python"], disinterest=["PYTHON"]` is rejected, and every
successfully constructed profile has disjoint tag lists. -/
theorem c9_tag_overlap_rejected :
    (∀ p, mkUserProfile ["Python"] ["PYTHON"] 0 10 ≠ Except.ok p) ∧
    (∀ i d ms ma p, mkUserProfile i d ms ma = Except.ok p →
      p.interest_tags.filter (fun t => p.disinterest_tags.contains t) = []) := by
  constructor
  · intro p
    have h : mkUserProfile ["Python"] ["PYTHON"] 0 10 =
        Except.error "Tags cannot be in both interest and disinterest lists" := rfl
    rw [h]
    intro hcon
    cases hcon
  · intro i d ms ma p h
    simp only [mkUserProfile] at h
    by_cases h1 : ¬(0 ≤ ms ∧ ms ≤ 1)
    · rw [if_pos h1] at h
      cases h
    · rw [if_neg h1] at h
      by_cases h2 : ¬(1 ≤ ma ∧ ma ≤ 100)
      · rw [if_pos h2] at h
        cases h
      · rw [if_neg h2] at h
        by_cases h3 : normalize_tags i ≠ [] ∧ normalize_tags d ≠ [] ∧
            (normalize_tags i).filter (fun t => (normalize_tags d).contains t) ≠ []
        · rw [if_pos h3] at h
          cases h
        · rw [if_neg h3] at h
          injection h with h
          subst h
          push_neg at h3
          by_cases hit : normalize_tags i = []
          · simp [hit]
          · by_cases hdt : normalize_tags d = []
            · simp [hdt]
            · exact h3 hit hdt

/-- Witness for C9: the overlapping construction is rejected, and a
successful disjoint construction yields disjoint tag lists. -/
theorem c9_tag_overlap_rejected_witness :
    mkUserProfile ["Python"] ["PYTHON"] 0 10 ≠
      Except.ok ⟨["python"], ["python"], 0, 10⟩ ∧
    (["python"] : List String).filter
      (fun t => (["crypto"] : List String).contains t) = [] := by
  have h := c9_tag_overlap_rejected
  refine ⟨h.1 _, ?_⟩
  have h2 := h.2 ["Python"] ["Crypto"] 0 10 ⟨["python"], ["crypto"], 0, 10⟩ rfl
  exact h2

/-! ## Article loader text processing (services/loader.py) -/

/-- Python `str.split(sep)` for a single-character separator (note
`"".split(sep) == [""]`, and separators at the ends produce empty pieces). -/
def pySplitChar (sep : Char) : List Char → List (List Char)
  | [] => [[]]
  | c :: rest =>
    let r := pySplitChar sep rest
    if c = sep then [] :: r
    else
      match r with
      | [] => [[c]]
      | h :: t => (c :: h) :: t

/-- Python `"\n".join(lines)` on character lists. -/
def joinNl : List (List Char) → List Char
  | [] => []
  | [l] => l
  | l :: ls => l ++ '\n' :: joinNl ls

/-- `re.sub(r"\s+", " ", text)`: replace every maximal whitespace run by one
space.  The Bool argument records whether the previous character was
whitespace (i.e. whether we are inside a run already replaced). -/
def collapseWsAux : Bool → List Char → List Char
  | _, [] => []
  | prevWs, c :: rest =>
    if pyIsSpace c then
      if prevWs then collapseWsAux true rest
      else ' ' :: collapseWsAux true rest
    else c :: collapseWsAux false rest

/-- services/loader.py line 290: `re.sub(r"\s+", " ", text)`. -/
def collapseWs (l : List Char) : List Char := collapseWsAux false l

/-- services/loader.py: `ArticleLoader._clean_text`: collapse whitespace,
split into lines, strip each, drop blanks, rejoin with newlines. -/
def clean_text (text : List Char) : List Char :=
  let text2 := collapseWs text
  let lines := ((pySplitChar '\n' text2).map stripChars).filter (fun l => !l.isEmpty)
  joinNl lines

/-- Python `str.rfind(sub)` on character lists: the largest index at which
`sub` begins, or -1 if it does not occur. -/
def pyRfind (sub l : List Char) : Int :=
  match ((List.range (l.length + 1)).filter
      (fun i => (l.drop i).take sub.length == sub)).getLast? with
  | some i => (i : Int)
  | none => -1

/-- services/loader.py: `ArticleLoader._truncate_content`, parametrized by
the instance attribute `max_content_length`. -/
def truncate_content (max_content_length : Nat) (content : List Char) : List Char :=
  if content.length ≤ max_content_length then content
  else
    let truncated := content.take max_content_length
    let last_period := pyRfind ['.', ' '] truncated
    let last_newline := pyRfind ['\n'] truncated
    let boundary := max last_period last_newline
    if boundary > ((max_content_length / 2 : Nat) : Int) then
      stripChars (truncated.take (boundary + 1).toNat)
    else
      stripChars truncated

/-- The truncation written with only the `". "` boundary: the claim is that
on newline-free content (i.e. everything `_clean_text` produces) the source's
`_truncate_content` coincides with this. -/
def truncatePeriodOnly (max_content_length : Nat) (content : List Char) : List Char :=
  if content.length ≤ max_content_length then content
  else
    let truncated := content.take max_content_length
    let last_period := pyRfind ['.', ' '] truncated
    let boundary := last_period
    if boundary > ((max_content_length / 2 : Nat) : Int) then
      stripChars (truncated.take (boundary + 1).toNat)
    else
      stripChars truncated

/-- services/loader.py: `ArticleLoader._extract_content_from_html`, with the
BeautifulSoup part (parsing, tag removal, main-content selection,
`get_text(separator="\n", strip=True)`) as an oracle argument: `none` models
parse failure or no main-content node, `some text` the raw extracted text.
The repository's own post-processing (cleaning and the 100-character floor)
is embedded. -/
def extract_content_from_html (getTextResult : Option (List Char)) :
    Option (List Char) :=
  match getTextResult with
  | none => none
  | some text =>
    let cleaned := clean_text text
    if cleaned.length < 100 then none else some cleaned

/-! ## C10 lemmas -/

theorem mem_collapseWsAux (b : Bool) (l : List Char) (c : Char)
    (h : c ∈ collapseWsAux b l) : c = ' ' ∨ pyIsSpace c = false := by
  induction l generalizing b with
  | nil => cases h
  | cons x xs ih =>
    by_cases hx : pyIsSpace x
    · cases b with
      | true =>
        have h2 : collapseWsAux true (x :: xs) = collapseWsAux true xs := by
          simp [collapseWsAux, hx]
        rw [h2] at h
        exact ih true h
      | false =>
        have h2 : collapseWsAux false (x :: xs) = ' ' :: collapseWsAux true xs := by
          simp [collapseWsAux, hx]
        rw [h2] at h
        rcases List.mem_cons.mp h with h3 | h3
        · exact Or.inl h3
        · exact ih true h3
    · have h2 : collapseWsAux b (x :: xs) = x :: collapseWsAux false xs := by
        simp [collapseWsAux, hx]
      rw [h2] at h
      rcases List.mem_cons.mp h with h3 | h3
      · subst h3
        exact Or.inr (by simpa using hx)
      · exact ih false h3

theorem newline_not_mem_collapseWs (l : List Char) : '\n' ∉ collapseWs l := by
  intro h
  rcases mem_collapseWsAux false l '\n' h with h2 | h2
  · cases h2
  · simp [pyIsSpace] at h2

theorem pySplitChar_of_not_mem (sep : Char) (l : List Char) (h : sep ∉ l) :
    pySplitChar sep l = [l] := by
  induction l with
  | nil => rfl
  | cons c rest ih =>
    have hc : c ≠ sep := by
      intro hcon
      exact h (hcon ▸ List.mem_cons_self _ _)
    have hrest : sep ∉ rest := fun hcon => h (List.mem_cons_of_mem _ hcon)
    simp [pySplitChar, hc, ih hrest]

theorem mem_stripChars (l : List Char) (c : Char) (h : c ∈ stripChars l) :
    c ∈ l := by
  simp only [stripChars, List.mem_reverse] at h
  have h2 := (List.dropWhile_sublist (l := (l.dropWhile pyIsSpace).reverse)
    (p := pyIsSpace)).mem h
  rw [List.mem_reverse] at h2
  exact (List.dropWhile_sublist (l := l) (p := pyIsSpace)).mem h2

theorem newline_not_mem_clean_text (text : List Char) :
    '\n' ∉ clean_text text := by
  intro h
  simp only [clean_text] at h
  rw [pySplitChar_of_not_mem '\n' (collapseWs text)
    (newline_not_mem_collapseWs text)] at h
  by_cases hemp : (stripChars (collapseWs text)).isEmpty
  · simp [joinNl, hemp] at h
  · have h2 : (([stripChars (collapseWs text)]).filter
        (fun l => !l.isEmpty)) = [stripChars (collapseWs text)] := by
      simp [hemp]
    simp only [List.map] at h
    rw [h2] at h
    simp only [joinNl] at h
    exact newline_not_mem_collapseWs text (mem_stripChars _ _ h)

theorem pyRfind_newline_of_not_mem (l : List Char) (h : '\n' ∉ l) :
    pyRfind ['\n'] l = -1 := by
  have hfilter : (List.range (l.length + 1)).filter
      (fun i => (l.drop i).take 1 == ['\n']) = [] := by
    apply List.filter_eq_nil_iff.mpr
    intro i _
    intro hcon
    have he : (l.drop i).take 1 = ['\n'] := eq_of_beq hcon
    have hmem : '\n' ∈ (l.drop i).take 1 := by
      rw [he]
      exact List.mem_singleton_self _
    exact h (List.mem_of_mem_drop (List.mem_of_mem_take hmem))
  simp [pyRfind, hfilter]

theorem pyRfind_ge_neg_one (sub l : List Char) : -1 ≤ pyRfind sub l := by
  unfold pyRfind
  match hm : ((List.range (l.length + 1)).filter
      (fun i => (l.drop i).take sub.length == sub)).getLast? with
  | some i =>
    simp
    omega
  | none => simp

/-- C10: `_clean_text` never returns a string containing a newline (the
whitespace collapse replaces every newline before the line split), so every
text produced by `_extract_content_from_html` is a single line, and on
newline-free content the newline `rfind` in `_truncate_content` is -1, making
the truncation coincide with the version that only uses the `". "`
boundary. -/
theorem c10_clean_text_single_line :
    (∀ text : List Char, '\n' ∉ clean_text text) ∧
    (∀ t c, extract_content_from_html t = some c → '\n' ∉ c) ∧
    (∀ (maxLen : Nat) (c : List Char), '\n' ∉ c →
      pyRfind ['\n'] (c.take maxLen) = -1 ∧
      truncate_content maxLen c = truncatePeriodOnly maxLen c) := by
  refine ⟨newline_not_mem_clean_text, ?_, ?_⟩
  · intro t c h
    match t with
    | none => cases h
    | some text =>
      simp only [extract_content_from_html] at h
      by_cases hlen : (clean_text text).length < 100
      · rw [if_pos hlen] at h
        cases h
      · rw [if_neg hlen] at h
        injection h with h
        subst h
        exact newline_not_mem_clean_text text
  · intro maxLen c hc
    have htake : '\n' ∉ c.take maxLen := fun hmem => hc (List.mem_of_mem_take hmem)
    have hln := pyRfind_newline_of_not_mem _ htake
    refine ⟨hln, ?_⟩
    simp only [truncate_content, truncatePeriodOnly]
    by_cases hlen : c.length ≤ maxLen
    · rw [if_pos hlen, if_pos hlen]
    · rw [if_neg hlen, if_neg hlen]
      rw [hln]
      have hmax : max (pyRfind ['.', ' '] (c.take maxLen)) (-1 : Int) =
          pyRfind ['.', ' '] (c.take maxLen) :=
        max_eq_left (pyRfind_ge_neg_one _ _)
      rw [hmax]

/-- Witness for C10 at concrete strings. -/
theorem c10_clean_text_single_line_witness :
    '\n' ∉ clean_text ['a', '\n', 'b'] ∧
    '\n' ∉ clean_text (List.replicate 100 'a') ∧
    pyRfind ['\n'] ((['a', 'b', '.', ' ', 'c']).take 4) = -1 ∧
    truncate_content 4 ['a', 'b', '.', ' ', 'c'] =
      truncatePeriodOnly 4 ['a', 'b', '.', ' ', 'c'] := by
  have h := c10_clean_text_single_line
  have h2 := h.2.2 4 ['a', 'b', '.', ' ', 'c'] (by decide)
  exact ⟨h.1 _, h.2.1 (some (List.replicate 100 'a')) _ (by decide), h2.1, h2.2⟩

/-! ## Story model and article extraction (models/story.py, services/loader.py) -/

/-- models/story.py: `Story` (the fields the loader reads; `by` is a Lean
keyword, hence `by_`). -/
structure Story where
  id : Int
  title : String
  url : Option String
  score : Int
  by_ : String
  descendants : Option Int
  text : Option String
deriving DecidableEq, Repr

/-- models/story.py: `Story.hn_url` computed field. -/
def Story.hn_url (s : Story) : String :=
  "https://news.ycombinator.com/item?id=" ++ toString s.id

/-- Python `len(s.split())`: number of maximal non-whitespace runs. -/
def countTokensAux : Bool → List Char → Nat
  | _, [] => 0
  | inWord, c :: rest =>
    if pyIsSpace c then countTokensAux false rest
    else (if inWord then 0 else 1) + countTokensAux true rest

/-- Python `len(s.split())` on a string. -/
def pySplitCount (s : String) : Nat := countTokensAux false s.data

/-- Outcome of `ArticleLoader._fetch_content(url)` (the HTTP fetch plus HTML
extraction), modelled as an oracle over the external network/parser:
`raised` is an exception escaping it, `fetched content fetch_error` its
normal `(content, error)` return. -/
inductive FetchOutcome where
  | raised (msg : String)
  | fetched (content : Option String) (fetch_error : Option String)

/-- services/loader.py: `ArticleLoader.extract_article`, with three oracles
for the external collaborators: `fetch` for `_fetch_content`, `should_skip`
for `should_skip_url` (whose domain/extension logic rides on `urlparse`) and
`extract_domain` for `ArticleLoader.extract_domain` (also `urlparse`-based).
The decision tree (no url → skip check → fetch → fetch error → empty →
success) is the repository's own code and is embedded faithfully. -/
def extract_article (fetch : String → FetchOutcome)
    (should_skip : String → Bool × String)
    (extract_domain : String → Option String) (story : Story) : Article :=
  let base : Article :=
    { story_id := story.id
      title := story.title
      url := story.url
      hn_url := story.hn_url
      hn_score := story.score
      hn_comments := story.descendants.getD 0
      author := story.by_
      content := none
      word_count := 0
      status := ExtractionStatus.success
      error_message := none
      domain := if optStrTruthy story.url then extract_domain (story.url.getD "")
        else none
      hn_text := story.text }
  if !(optStrTruthy story.url) then
    { base with
      status := ExtractionStatus.no_url
      content := none
      word_count := if optStrTruthy story.text then pySplitCount (story.text.getD "")
        else 0 }
  else
    let url := story.url.getD ""
    let skip := should_skip url
    if skip.1 then
      { base with
        status := ExtractionStatus.skipped
        error_message := some skip.2 }
    else
      match fetch url with
      | FetchOutcome.raised e =>
        { base with
          status := ExtractionStatus.failed
          error_message := some e }
      | FetchOutcome.fetched content fetch_error =>
        if optStrTruthy fetch_error then
          { base with
            status := ExtractionStatus.failed
            error_message := fetch_error }
        else if !(optStrTruthy content) then
          { base with
            status := ExtractionStatus.empty
            error_message := some "No content could be extracted" }
        else
          { base with
            status := ExtractionStatus.success
            content := content
            word_count := pySplitCount (content.getD "") }

/-- C8: for a story with no URL, `extract_article` returns status `no_url`,
its effective content (`display_content`, i.e. `content or hn_text` — the
extracted-content field itself stays `None`) equals the story's self-text
whenever that is present, and its word count is the whitespace-token count
of the self-text (0 when there is none). -/
theorem c8_no_url_self_text (fetch : String → FetchOutcome)
    (should_skip : String → Bool × String)
    (extract_domain : String → Option String) (story : Story)
    (hurl : story.url = none) :
    (extract_article fetch should_skip extract_domain story).status =
      ExtractionStatus.no_url ∧
    (extract_article fetch should_skip extract_domain story).content = none ∧
    (∀ t, story.text = some t →
      (extract_article fetch should_skip extract_domain story).display_content =
        some t) ∧
    (extract_article fetch should_skip extract_domain story).word_count =
      pySplitCount (story.text.getD "") := by
  have hcond : (!(optStrTruthy story.url)) = true := by
    rw [hurl]
    rfl
  have hout : extract_article fetch should_skip extract_domain story =
      { story_id := story.id
        title := story.title
        url := story.url
        hn_url := story.hn_url
        hn_score := story.score
        hn_comments := story.descendants.getD 0
        author := story.by_
        content := none
        word_count := if optStrTruthy story.text then
            pySplitCount (story.text.getD "")
          else 0
        status := ExtractionStatus.no_url
        error_message := none
        domain := if optStrTruthy story.url then
            extract_domain (story.url.getD "")
          else none
        hn_text := story.text } := by
    simp only [extract_article]
    rw [if_pos hcond]
  rw [hout]
  refine ⟨rfl, rfl, ?_, ?_⟩
  · intro t ht
    simp [Article.display_content, pyOrStr, optStrTruthy, ht]
  · simp only
    match hts : story.text with
    | none => rfl
    | some t =>
      by_cases hne : t = ""
      · subst hne
        simp [optStrTruthy, pySplitCount, countTokensAux]
      · simp [optStrTruthy, hne]

/-- Witness for C8 at a concrete Ask-HN style story. -/
theorem c8_no_url_self_text_witness :
    (extract_article (fun _ => FetchOutcome.fetched none none) (fun _ => (false, ""))
        (fun _ => none) ⟨7, "Ask HN", none, 10, "bob", some 3, some "hello world"⟩).status =
      ExtractionStatus.no_url ∧
    (extract_article (fun _ => FetchOutcome.fetched none none) (fun _ => (false, ""))
        (fun _ => none) ⟨7, "Ask HN", none, 10, "bob", some 3, some "hello world"⟩).content =
      none ∧
    (extract_article (fun _ => FetchOutcome.fetched none none) (fun _ => (false, ""))
        (fun _ => none) ⟨7, "Ask HN", none, 10, "bob", some 3, some "hello world"⟩).display_content =
      some "hello world" ∧
    (extract_article (fun _ => FetchOutcome.fetched none none) (fun _ => (false, ""))
        (fun _ => none) ⟨7, "Ask HN", none, 10, "bob", some 3, some "hello world"⟩).word_count =
      pySplitCount "hello world" := by
  have h := c8_no_url_self_text (fun _ => FetchOutcome.fetched none none)
    (fun _ => (false, "")) (fun _ => none)
    ⟨7, "Ask HN", none, 10, "bob", some 3, some "hello world"⟩ rfl
  exact ⟨h.1, h.2.1, h.2.2.1 "hello world" rfl, h.2.2.2⟩

/-! ## Batch extraction (services/loader.py `extract_articles`) -/

/-- Result of one story's extraction task as seen by
`asyncio.gather(..., return_exceptions=True)`: either the Article that
`extract_article` returned, or an exception that escaped the task. -/
inductive ExtractOutcome where
  | ok (a : Article)
  | exn (msg : String)

/-- services/loader.py lines 537-551: the failed Article built for a story
whose extraction task raised. -/
def failedArticle (extract_domain : String → Option String) (story : Story)
    (msg : String) : Article :=
  { story_id := story.id
    title := story.title
    url := story.url
    hn_url := story.hn_url
    hn_score := story.score
    hn_comments := story.descendants.getD 0
    author := story.by_
    content := none
    word_count := 0
    status := ExtractionStatus.failed
    error_message := some msg
    domain := if optStrTruthy story.url then extract_domain (story.url.getD "")
      else none
    hn_text := story.text }

/-- services/loader.py: `ArticleLoader.extract_articles`: one task per story
via `asyncio.gather`, results processed back in input order, exceptions
converted to failed records.  `results` is the oracle giving each story's
task outcome. -/
def extract_articles (extract_domain : String → Option String)
    (results : Story → ExtractOutcome) (stories : List Story) : List Article :=
  if stories.isEmpty then []
  else
    stories.map (fun story =>
      match results story with
      | ExtractOutcome.ok a => a
      | ExtractOutcome.exn e => failedArticle extract_domain story e)

theorem extract_articles_length (extract_domain : String → Option String)
    (results : Story → ExtractOutcome) (stories : List Story) :
    (extract_articles extract_domain results stories).length = stories.length := by
  unfold extract_articles
  by_cases h : stories.isEmpty
  · rw [if_pos h, List.isEmpty_iff.mp h]
    rfl
  · rw [if_neg h, List.length_map]

theorem extract_articles_get (extract_domain : String → Option String)
    (results : Story → ExtractOutcome) (stories : List Story)
    (k : Nat) (hk : k < stories.length)
    (hk2 : k < (extract_articles extract_domain results stories).length) :
    (extract_articles extract_domain results stories).get ⟨k, hk2⟩ =
      match results (stories.get ⟨k, hk⟩) with
      | ExtractOutcome.ok a => a
      | ExtractOutcome.exn e => failedArticle extract_domain (stories.get ⟨k, hk⟩) e := by
  have hne : ¬stories.isEmpty := by
    intro hcon
    rw [List.isEmpty_iff.mp hcon] at hk
    cases hk
  have heq : extract_articles extract_domain results stories =
      stories.map (fun story =>
        match results story with
        | ExtractOutcome.ok a => a
        | ExtractOutcome.exn e => failedArticle extract_domain story e) := by
    unfold extract_articles
    rw [if_neg hne]
  revert hk2
  rw [heq]
  intro hk2
  simp

/-! ## Batch summarization (services/llm.py `summarize_articles_batch`) -/

/-- Outcome of one batch LLM call (`_call_llm` + `_batch_parser.parse`) for
one chunk, modelled as an oracle over the external LLM:
`summaries` is a successful parse (possibly shorter than the chunk),
`rate_or_api_error` is `LLMRateLimitError`/`LLMAPIError`, `other_error` any
other exception (handled as a parse error by `_process_batch`). -/
inductive LLMBatchOutcome where
  | summaries (l : List ArticleSummary)
  | rate_or_api_error (msg : String)
  | other_error (msg : String)

/-- services/llm.py: `LLMService._result` factory. -/
def mkResult (article : Article) (summary : Option ArticleSummary)
    (status : SummarizationStatus) (error : Option String) : SummarizedArticle :=
  ⟨article, summary, status, error⟩

/-- The `results` list of `summarize_articles_batch`, modelled as an
index-keyed store (`results[i]` in the Python list). -/
abbrev SumStore := Nat → Option SummarizedArticle

/-- `results[i] = v`. -/
def setAt (r : SumStore) (i : Nat) (v : SummarizedArticle) : SumStore :=
  fun j => if j = i then some v else r j

/-- services/llm.py: `LLMService._fill_error_results`:
`if results[orig_idx] is None: results[orig_idx] = ...`. -/
def fill_error_results (pairs : List (Nat × Article))
    (status : SummarizationStatus) (error : String) (results : SumStore) : SumStore :=
  pairs.foldl (fun r p =>
    if r p.1 = none then setAt r p.1 (mkResult p.2 none status (some error))
    else r) results

/-- services/llm.py: `LLMService._map_batch_results`: zip the chunk with the
returned summaries (`strict=False`, so extra chunk entries are left unset),
then fill every still-unset chunk index with a parse error. -/
def map_batch_results (chunk : List (Nat × Article))
    (summaries : List ArticleSummary) (results : SumStore) : SumStore :=
  let results2 := (chunk.zip summaries).foldl
    (fun r p => setAt r p.1.1 (mkResult p.1.2 (some p.2)
      SummarizationStatus.success none)) results
  fill_error_results (chunk.filter (fun p => (results2 p.1).isNone))
    SummarizationStatus.parse_error "Missing summary in batch response" results2

/-- services/llm.py: `LLMService._process_batch`. -/
def process_batch (call : List Article → LLMBatchOutcome)
    (chunk : List (Nat × Article)) (results : SumStore) : SumStore :=
  match call (chunk.map Prod.snd) with
  | LLMBatchOutcome.summaries l => map_batch_results chunk l results
  | LLMBatchOutcome.rate_or_api_error e =>
    fill_error_results chunk SummarizationStatus.api_error e results
  | LLMBatchOutcome.other_error e =>
    fill_error_results chunk SummarizationStatus.parse_error e results

/-- services/llm.py: the `articles_with_content` list built by
`_prepare_batch` (`if article.content or article.hn_text`). -/
def articles_with_content (articles : List Article) : List (Nat × Article) :=
  articles.enum.filter
    (fun p => optStrTruthy p.2.content || optStrTruthy p.2.hn_text)

/-- services/llm.py: the `results` store right after `_prepare_batch`:
no-content articles are short-circuited to `no_content`, the rest left unset. -/
def prepare_results (articles : List Article) : SumStore :=
  fun j =>
    match articles.get? j with
    | some a =>
      if optStrTruthy a.content || optStrTruthy a.hn_text then none
      else some (mkResult a none SummarizationStatus.no_content none)
    | none => none

/-- The chunking `articles_with_content[i : i + batch_size]` for
`i in range(0, len, batch_size)`.  Fuel-driven so that it is structurally
recursive; `fuel ≥ l.length` and `bs > 0` make it the Python chunking
(Python raises on `batch_size = 0`, which is outside the model). -/
def chunksOfAux (bs : Nat) : Nat → List α → List (List α)
  | 0, _ => []
  | _ + 1, [] => []
  | fuel + 1, x :: xs => ((x :: xs).take bs) :: chunksOfAux bs fuel ((x :: xs).drop bs)

/-- Chunks of size `bs` (last one possibly shorter). -/
def chunksOf (bs : Nat) (l : List α) : List (List α) :=
  chunksOfAux bs l.length l

/-- services/llm.py: `LLMService.summarize_articles_batch`, with `call` the
batch-LLM oracle and `batch_size` from settings. -/
def summarize_articles_batch (call : List Article → LLMBatchOutcome)
    (batch_size : Nat) (articles : List Article) : List SummarizedArticle :=
  if articles.isEmpty then []
  else
    let wc := articles_with_content articles
    let results0 := prepare_results articles
    if wc.isEmpty then
      (List.range articles.length).filterMap results0
    else
      let final := (chunksOf batch_size wc).foldl
        (fun r c => process_batch call c r) results0
      (List.range articles.length).filterMap final

/-! ## Store invariants for `summarize_articles_batch` -/

/-- Every filled slot of the store holds a result for the article at that
index. -/
def goodFor (articles : List Article) (st : SumStore) : Prop :=
  ∀ i r, st i = some r → articles.get? i = some r.article

/-- Every (index, article) pair points at the right slot. -/
def pairsOkFor (articles : List Article) (pairs : List (Nat × Article)) : Prop :=
  ∀ p ∈ pairs, articles.get? p.1 = some p.2

theorem prepare_results_good (articles : List Article) :
    goodFor articles (prepare_results articles) := by
  intro i r h
  unfold prepare_results at h
  match hg : articles.get? i with
  | none =>
    rw [hg] at h
    cases h
  | some a =>
    rw [hg] at h
    by_cases ht : optStrTruthy a.content || optStrTruthy a.hn_text
    · simp [ht] at h
    · simp [ht] at h
      subst h
      simp [hg, mkResult]

theorem setAt_good (articles : List Article) (st : SumStore) (i : Nat)
    (v : SummarizedArticle) (hg : goodFor articles st)
    (hv : articles.get? i = some v.article) :
    goodFor articles (setAt st i v) := by
  intro j r h
  unfold setAt at h
  by_cases hij : j = i
  · rw [if_pos hij] at h
    injection h with h
    subst h
    rw [hij]
    exact hv
  · rw [if_neg hij] at h
    exact hg j r h

theorem fill_error_results_good (articles : List Article)
    (pairs : List (Nat × Article)) (status : SummarizationStatus) (error : String)
    (st : SumStore) (hp : pairsOkFor articles pairs) (hg : goodFor articles st) :
    goodFor articles (fill_error_results pairs status error st) := by
  induction pairs generalizing st with
  | nil => exact hg
  | cons q qs ih =>
    have hq : articles.get? q.1 = some q.2 := hp q (List.mem_cons_self _ _)
    have hqs : pairsOkFor articles qs := fun p hp2 => hp p (List.mem_cons_of_mem _ hp2)
    show goodFor articles (fill_error_results qs status error
      (if st q.1 = none then setAt st q.1 (mkResult q.2 none status (some error))
       else st))
    apply ih _ hqs
    by_cases hnone : st q.1 = none
    · rw [if_pos hnone]
      exact setAt_good articles st q.1 _ hg hq
    · rw [if_neg hnone]
      exact hg

theorem fold_setAt_success_good (articles : List Article)
    (zl : List ((Nat × Article) × ArticleSummary)) (st : SumStore)
    (hz : ∀ q ∈ zl, articles.get? q.1.1 = some q.1.2) (hg : goodFor articles st) :
    goodFor articles (zl.foldl (fun r q => setAt r q.1.1
      (mkResult q.1.2 (some q.2) SummarizationStatus.success none)) st) := by
  induction zl generalizing st with
  | nil => exact hg
  | cons q qs ih =>
    apply ih _ (fun p hp2 => hz p (List.mem_cons_of_mem _ hp2))
    exact setAt_good articles st q.1.1 _ hg (hz q (List.mem_cons_self _ _))

theorem map_batch_results_good (articles : List Article)
    (chunk : List (Nat × Article)) (summaries : List ArticleSummary)
    (st : SumStore) (hp : pairsOkFor articles chunk) (hg : goodFor articles st) :
    goodFor articles (map_batch_results chunk summaries st) := by
  unfold map_batch_results
  apply fill_error_results_good
  · intro p hp2
    exact hp p (List.mem_filter.mp hp2).1
  · apply fold_setAt_success_good
    · intro q hq
      exact hp q.1 (List.of_mem_zip hq).1
    · exact hg

theorem process_batch_good (articles : List Article)
    (call : List Article → LLMBatchOutcome) (chunk : List (Nat × Article))
    (st : SumStore) (hp : pairsOkFor articles chunk) (hg : goodFor articles st) :
    goodFor articles (process_batch call chunk st) := by
  unfold process_batch
  match call (chunk.map Prod.snd) with
  | LLMBatchOutcome.summaries l => exact map_batch_results_good articles chunk l st hp hg
  | LLMBatchOutcome.rate_or_api_error e => exact fill_error_results_good articles chunk _ _ st hp hg
  | LLMBatchOutcome.other_error e => exact fill_error_results_good articles chunk _ _ st hp hg

theorem setAt_defined_mono (st : SumStore) (j : Nat) (v : SummarizedArticle)
    (i : Nat) (h : st i ≠ none) : setAt st j v i ≠ none := by
  unfold setAt
  by_cases hij : i = j
  · rw [if_pos hij]
    intro hcon
    cases hcon
  · rw [if_neg hij]
    exact h

theorem fold_setAt_defined_mono (zl : List ((Nat × Article) × ArticleSummary))
    (st : SumStore) (i : Nat) (h : st i ≠ none) :
    (zl.foldl (fun r q => setAt r q.1.1
      (mkResult q.1.2 (some q.2) SummarizationStatus.success none)) st) i ≠ none := by
  induction zl generalizing st with
  | nil => exact h
  | cons q qs ih => exact ih _ (setAt_defined_mono st q.1.1 _ i h)

theorem fill_error_results_defined_mono (pairs : List (Nat × Article))
    (status : SummarizationStatus) (error : String) (st : SumStore) (i : Nat)
    (h : st i ≠ none) : fill_error_results pairs status error st i ≠ none := by
  induction pairs generalizing st with
  | nil => exact h
  | cons q qs ih =>
    show fill_error_results qs status error
      (if st q.1 = none then setAt st q.1 (mkResult q.2 none status (some error))
       else st) i ≠ none
    apply ih
    by_cases hnone : st q.1 = none
    · rw [if_pos hnone]
      exact setAt_defined_mono st q.1 _ i h
    · rw [if_neg hnone]
      exact h

theorem fill_error_results_covers (pairs : List (Nat × Article))
    (status : SummarizationStatus) (error : String) (st : SumStore)
    (p : Nat × Article) (hp : p ∈ pairs) :
    fill_error_results pairs status error st p.1 ≠ none := by
  induction pairs generalizing st with
  | nil => cases hp
  | cons q qs ih =>
    show fill_error_results qs status error
      (if st q.1 = none then setAt st q.1 (mkResult q.2 none status (some error))
       else st) p.1 ≠ none
    rcases List.mem_cons.mp hp with h | h
    · subst h
      apply fill_error_results_defined_mono
      by_cases hnone : st p.1 = none
      · rw [if_pos hnone]
        unfold setAt
        rw [if_pos rfl]
        intro hcon
        cases hcon
      · rw [if_neg hnone]
        exact hnone
    · exact ih _ h

theorem map_batch_results_covers (chunk : List (Nat × Article))
    (summaries : List ArticleSummary) (st : SumStore)
    (p : Nat × Article) (hp : p ∈ chunk) :
    map_batch_results chunk summaries st p.1 ≠ none := by
  unfold map_batch_results
  set st2 := (chunk.zip summaries).foldl
    (fun r p => setAt r p.1.1 (mkResult p.1.2 (some p.2)
      SummarizationStatus.success none)) st with hst2
  by_cases hnone : st2 p.1 = none
  · apply fill_error_results_covers
    refine List.mem_filter.mpr ⟨hp, ?_⟩
    simp [hnone]
  · exact fill_error_results_defined_mono _ _ _ _ _ hnone

theorem process_batch_covers (call : List Article → LLMBatchOutcome)
    (chunk : List (Nat × Article)) (st : SumStore)
    (p : Nat × Article) (hp : p ∈ chunk) :
    process_batch call chunk st p.1 ≠ none := by
  unfold process_batch
  match call (chunk.map Prod.snd) with
  | LLMBatchOutcome.summaries l => exact map_batch_results_covers chunk l st p hp
  | LLMBatchOutcome.rate_or_api_error e => exact fill_error_results_covers chunk _ _ st p hp
  | LLMBatchOutcome.other_error e => exact fill_error_results_covers chunk _ _ st p hp

theorem process_batch_defined_mono (call : List Article → LLMBatchOutcome)
    (chunk : List (Nat × Article)) (st : SumStore) (i : Nat) (h : st i ≠ none) :
    process_batch call chunk st i ≠ none := by
  unfold process_batch
  match call (chunk.map Prod.snd) with
  | LLMBatchOutcome.summaries l =>
    unfold map_batch_results
    apply fill_error_results_defined_mono
    exact fold_setAt_defined_mono _ _ _ h
  | LLMBatchOutcome.rate_or_api_error e => exact fill_error_results_defined_mono _ _ _ _ _ h
  | LLMBatchOutcome.other_error e => exact fill_error_results_defined_mono _ _ _ _ _ h

theorem foldl_process_defined_mono (call : List Article → LLMBatchOutcome)
    (chunks : List (List (Nat × Article))) (st : SumStore) (i : Nat)
    (h : st i ≠ none) :
    (chunks.foldl (fun r c => process_batch call c r) st) i ≠ none := by
  induction chunks generalizing st with
  | nil => exact h
  | cons c cs ih => exact ih _ (process_batch_defined_mono call c st i h)

theorem foldl_process_covers (call : List Article → LLMBatchOutcome)
    (chunks : List (List (Nat × Article))) (st : SumStore)
    (c : List (Nat × Article)) (hc : c ∈ chunks) (p : Nat × Article) (hp : p ∈ c) :
    (chunks.foldl (fun r c => process_batch call c r) st) p.1 ≠ none := by
  induction chunks generalizing st with
  | nil => cases hc
  | cons c0 cs ih =>
    rcases List.mem_cons.mp hc with h | h
    · subst h
      exact foldl_process_defined_mono call cs _ p.1
        (process_batch_covers call c st p hp)
    · exact ih _ h

theorem chunksOfAux_subset (bs fuel : Nat) (l : List α)
    (c : List α) (hc : c ∈ chunksOfAux bs fuel l) : ∀ x ∈ c, x ∈ l := by
  induction fuel generalizing l with
  | zero => cases hc
  | succ fuel ih =>
    match l with
    | [] => cases hc
    | y :: ys =>
      rcases List.mem_cons.mp hc with h | h
      · subst h
        exact fun x hx => List.mem_of_mem_take hx
      · intro x hx
        exact List.mem_of_mem_drop (ih _ h x hx)

theorem chunksOfAux_covers (bs : Nat) (hbs : 0 < bs) (fuel : Nat) (l : List α)
    (hfuel : l.length ≤ fuel) (x : α) (hx : x ∈ l) :
    ∃ c ∈ chunksOfAux bs fuel l, x ∈ c := by
  induction fuel generalizing l with
  | zero =>
    rw [Nat.le_zero, List.length_eq_zero] at hfuel
    subst hfuel
    cases hx
  | succ fuel ih =>
    match l with
    | [] => cases hx
    | y :: ys =>
      rw [← List.take_append_drop bs (y :: ys)] at hx
      rcases List.mem_append.mp hx with h | h
      · exact ⟨(y :: ys).take bs, List.mem_cons_self _ _, h⟩
      · have hlen : ((y :: ys).drop bs).length ≤ fuel := by
          rw [List.length_drop]
          have := List.length_cons y ys ▸ hfuel
          omega
        rcases ih ((y :: ys).drop bs) hlen h with ⟨c, hc, hxc⟩
        exact ⟨c, List.mem_cons_of_mem _ hc, hxc⟩

theorem articles_with_content_pairsOk (articles : List Article) :
    pairsOkFor articles (articles_with_content articles) := by
  intro p hp
  have hp2 : p ∈ articles.enum := (List.mem_filter.mp hp).1
  exact List.mem_enum_iff_get?.mp hp2

theorem foldl_process_good (articles : List Article)
    (call : List Article → LLMBatchOutcome) (chunks : List (List (Nat × Article)))
    (st : SumStore) (hc : ∀ c ∈ chunks, pairsOkFor articles c)
    (hg : goodFor articles st) :
    goodFor articles (chunks.foldl (fun r c => process_batch call c r) st) := by
  induction chunks generalizing st with
  | nil => exact hg
  | cons c cs ih =>
    exact ih _ (fun c2 h2 => hc c2 (List.mem_cons_of_mem _ h2))
      (process_batch_good articles call c st (hc c (List.mem_cons_self _ _)) hg)

/-- The store at the end of `summarize_articles_batch`, before the final
`[r for r in results if r is not None]` comprehension. -/
def finalStore (call : List Article → LLMBatchOutcome) (batch_size : Nat)
    (articles : List Article) : SumStore :=
  (chunksOf batch_size (articles_with_content articles)).foldl
    (fun r c => process_batch call c r) (prepare_results articles)

theorem summarize_eq_filterMap (call : List Article → LLMBatchOutcome)
    (batch_size : Nat) (articles : List Article) (h : ¬articles.isEmpty) :
    summarize_articles_batch call batch_size articles =
      (List.range articles.length).filterMap (finalStore call batch_size articles) := by
  unfold summarize_articles_batch finalStore
  rw [if_neg h]
  by_cases hwc : (articles_with_content articles).isEmpty
  · rw [if_pos hwc]
    rw [List.isEmpty_iff.mp hwc]
    rfl
  · rw [if_neg hwc]

theorem finalStore_covers_good (call : List Article → LLMBatchOutcome)
    (batch_size : Nat) (hbs : 0 < batch_size) (articles : List Article)
    (i : Nat) (hi : i < articles.length) :
    ∃ r, finalStore call batch_size articles i = some r ∧
      articles.get? i = some r.article := by
  have hgood : goodFor articles (finalStore call batch_size articles) := by
    apply foldl_process_good
    · intro c hc p hp
      exact articles_with_content_pairsOk articles p
        (chunksOfAux_subset batch_size _ _ c hc p hp)
    · exact prepare_results_good articles
  have ha : articles.get? i = some (articles.get ⟨i, hi⟩) := List.get?_eq_get hi
  have hdef : finalStore call batch_size articles i ≠ none := by
    by_cases ht : optStrTruthy (articles.get ⟨i, hi⟩).content ||
        optStrTruthy (articles.get ⟨i, hi⟩).hn_text
    · have hwc : (i, articles.get ⟨i, hi⟩) ∈ articles_with_content articles := by
        refine List.mem_filter.mpr ⟨List.mem_enum_iff_get?.mpr ha, ?_⟩
        simpa using ht
      rcases chunksOfAux_covers batch_size hbs
          (articles_with_content articles).length (articles_with_content articles)
          (le_refl _) (i, articles.get ⟨i, hi⟩) hwc with ⟨c, hc, hpc⟩
      exact foldl_process_covers call _ _ c hc _ hpc
    · apply foldl_process_defined_mono
      unfold prepare_results
      rw [ha]
      simp only [ht]
      simp
  match hr : finalStore call batch_size articles i with
  | none => exact absurd hr hdef
  | some r => exact ⟨r, rfl, hgood i r hr⟩

theorem filterMap_all_some_length {β : Type} (f : Nat → Option β) (l : List Nat)
    (h : ∀ i ∈ l, f i ≠ none) : (l.filterMap f).length = l.length := by
  induction l with
  | nil => rfl
  | cons x xs ih =>
    match hfx : f x with
    | none => exact absurd hfx (h x (List.mem_cons_self _ _))
    | some b =>
      rw [List.filterMap_cons, hfx]
      simp only [List.length_cons]
      rw [ih (fun i hi => h i (List.mem_cons_of_mem _ hi))]

theorem filterMap_all_some_get? {β : Type} (f : Nat → Option β) (l : List Nat)
    (h : ∀ i ∈ l, f i ≠ none) (k : Nat) (hk : k < l.length) :
    (l.filterMap f).get? k = f (l.get ⟨k, hk⟩) := by
  induction l generalizing k with
  | nil => cases hk
  | cons x xs ih =>
    match hfx : f x with
    | none => exact absurd hfx (h x (List.mem_cons_self _ _))
    | some b =>
      rw [List.filterMap_cons, hfx]
      match k with
      | 0 =>
        simp [hfx]
      | k + 1 =>
        simp only [List.get?_cons_succ, List.get_cons_succ]
        exact ih (fun i hi => h i (List.mem_cons_of_mem _ hi)) k
          (Nat.lt_of_succ_lt_succ hk)

theorem summarize_articles_batch_length (call : List Article → LLMBatchOutcome)
    (batch_size : Nat) (hbs : 0 < batch_size) (articles : List Article) :
    (summarize_articles_batch call batch_size articles).length = articles.length := by
  by_cases hemp : articles.isEmpty
  · unfold summarize_articles_batch
    rw [if_pos hemp, List.isEmpty_iff.mp hemp]
    rfl
  · rw [summarize_eq_filterMap call batch_size articles hemp]
    have hcov : ∀ i ∈ List.range articles.length,
        finalStore call batch_size articles i ≠ none := by
      intro i hi
      rcases finalStore_covers_good call batch_size hbs articles i
        (List.mem_range.mp hi) with ⟨r, hr, -⟩
      rw [hr]
      intro hcon
      cases hcon
    rw [filterMap_all_some_length _ _ hcov, List.length_range]

theorem summarize_articles_batch_article (call : List Article → LLMBatchOutcome)
    (batch_size : Nat) (hbs : 0 < batch_size) (articles : List Article)
    (k : Nat) (hk : k < articles.length)
    (hk2 : k < (summarize_articles_batch call batch_size articles).length) :
    ((summarize_articles_batch call batch_size articles).get ⟨k, hk2⟩).article =
      articles.get ⟨k, hk⟩ := by
  have hemp : ¬articles.isEmpty := by
    intro hcon
    rw [List.isEmpty_iff.mp hcon] at hk
    cases hk
  have hcov : ∀ i ∈ List.range articles.length,
      finalStore call batch_size articles i ≠ none := by
    intro i hi
    rcases finalStore_covers_good call batch_size hbs articles i
      (List.mem_range.mp hi) with ⟨r, hr, -⟩
    rw [hr]
    intro hcon
    cases hcon
  have hkr : k < (List.range articles.length).length := by
    rw [List.length_range]
    exact hk
  have hq : (summarize_articles_batch call batch_size articles).get? k =
      finalStore call batch_size articles ((List.range articles.length).get ⟨k, hkr⟩) := by
    rw [summarize_eq_filterMap call batch_size articles hemp]
    exact filterMap_all_some_get? _ _ hcov k hkr
  have hrange : (List.range articles.length).get ⟨k, hkr⟩ = k := List.get_range k hkr
  rw [hrange] at hq
  rcases finalStore_covers_good call batch_size hbs articles k hk with ⟨r, hr, hart⟩
  rw [hr] at hq
  have hget : (summarize_articles_batch call batch_size articles).get? k =
      some ((summarize_articles_batch call batch_size articles).get ⟨k, hk2⟩) :=
    List.get?_eq_get hk2
  rw [hget] at hq
  injection hq with hq
  rw [hq]
  have ha : articles.get? k = some (articles.get ⟨k, hk⟩) := List.get?_eq_get hk
  rw [ha] at hart
  injection hart with hart
  rw [hart]

/-- C6: `extract_articles` returns exactly one Article per input story, in
input order, converting a task's exception into a failed record for that
story; and `summarize_articles_batch` returns exactly one SummarizedArticle
per input article, in input order, whatever the per-chunk LLM outcomes
(api_error, parse_error, short summary lists) are. -/
theorem c6_batch_length_order
    (extract_domain : String → Option String) (results : Story → ExtractOutcome)
    (stories : List Story) (call : List Article → LLMBatchOutcome)
    (batch_size : Nat) (hbs : 0 < batch_size) (articles : List Article) :
    (extract_articles extract_domain results stories).length = stories.length ∧
    (∀ k (hk : k < stories.length)
        (hk2 : k < (extract_articles extract_domain results stories).length),
      (extract_articles extract_domain results stories).get ⟨k, hk2⟩ =
        match results (stories.get ⟨k, hk⟩) with
        | ExtractOutcome.ok a => a
        | ExtractOutcome.exn e =>
          failedArticle extract_domain (stories.get ⟨k, hk⟩) e) ∧
    (∀ story e,
      (failedArticle extract_domain story e).status = ExtractionStatus.failed ∧
      (failedArticle extract_domain story e).story_id = story.id) ∧
    (summarize_articles_batch call batch_size articles).length = articles.length ∧
    (∀ k (hk : k < articles.length)
        (hk2 : k < (summarize_articles_batch call batch_size articles).length),
      ((summarize_articles_batch call batch_size articles).get ⟨k, hk2⟩).article =
        articles.get ⟨k, hk⟩) :=
  ⟨extract_articles_length extract_domain results stories,
   fun k hk hk2 => extract_articles_get extract_domain results stories k hk hk2,
   fun story e => ⟨rfl, rfl⟩,
   summarize_articles_batch_length call batch_size hbs articles,
   fun k hk hk2 =>
     summarize_articles_batch_article call batch_size hbs articles k hk hk2⟩

/-- Concrete stories used by witnesses. -/
def storyA : Story := ⟨1, "A", some "https://a.example/x", 10, "alice", some 1, none⟩

/-- Second concrete story, whose extraction task raises in the witness. -/
def storyB : Story := ⟨2, "B", some "https://b.example/y", 20, "bob", none, none⟩

/-- Witness extraction oracle: story 1 succeeds, everything else raises. -/
def exOracleEx : Story → ExtractOutcome := fun s =>
  if s.id = 1 then ExtractOutcome.ok articleEx else ExtractOutcome.exn "boom"

/-- A concrete article with neither content nor hn_text. -/
def articleNC : Article :=
  ⟨3, "NC", none, "https://news.ycombinator.com/item?id=3", 5, 0, "carol",
    none, 0, ExtractionStatus.no_url, none, none, none⟩

/-- Witness LLM oracle: every chunk call fails with a rate limit. -/
def callFailEx : List Article → LLMBatchOutcome :=
  fun _ => LLMBatchOutcome.rate_or_api_error "rate limit 429"

/-- Witness for C6: a two-story batch with one raising task keeps length 2
and yields a failed record for the raising story; a two-article LLM batch
whose only chunk call fails still returns one result per article. -/
theorem c6_batch_length_order_witness :
    (extract_articles (fun _ => none) exOracleEx [storyA, storyB]).length = 2 ∧
    (failedArticle (fun _ => none) storyB "boom").status =
      ExtractionStatus.failed ∧
    (failedArticle (fun _ => none) storyB "boom").story_id = storyB.id ∧
    (extract_articles (fun _ => none) exOracleEx [storyA, storyB]).get? 1 =
      some (failedArticle (fun _ => none) storyB "boom") ∧
    (summarize_articles_batch callFailEx 5 [articleEx, articleNC]).length = 2 ∧
    (summarize_articles_batch callFailEx 5 [articleEx, articleNC]).get? 0 =
      some (mkResult articleEx none SummarizationStatus.api_error
        (some "rate limit 429")) := by
  have h := c6_batch_length_order (fun _ => none) exOracleEx [storyA, storyB]
    callFailEx 5 (by norm_num) [articleEx, articleNC]
  refine ⟨?_, (h.2.2.1 storyB "boom").1, (h.2.2.1 storyB "boom").2, by decide, ?_, by decide⟩
  · rw [h.1]
    rfl
  · rw [h.2.2.2.1]
    rfl

/-! ## Pipeline nodes and claim C7 -/

/-- graph/nodes/filter.py: `filter_articles` keeps only articles with
content and SUCCESS status. -/
def filter_articles (articles : List Article) : List Article :=
  articles.filter (fun a =>
    a.has_content && decide (a.status = ExtractionStatus.success))

/-- graph/nodes/summarize.py: empty filtered list short-circuits (recording
an error string), otherwise the batch summarizer runs. -/
def summarize_node (call : List Article → LLMBatchOutcome) (batch_size : Nat)
    (filtered : List Article) : List SummarizedArticle :=
  if filtered.isEmpty then []
  else summarize_articles_batch call batch_size filtered

/-- graph/nodes/score.py: empty summarized list short-circuits, otherwise
`ScoringService(profile)` (default weights) scores and filters. -/
def score_node (profile : UserProfile) (summarized : List SummarizedArticle) :
    List ScoredArticle :=
  if summarized.isEmpty then []
  else score_articles ⟨profile, RELEVANCE_WEIGHT, POPULARITY_WEIGHT⟩ summarized true

/-- models/digest.py: `DigestStats`. -/
structure DigestStats where
  fetched : Nat
  filtered : Nat
  final : Nat
  errors : Nat
  generation_time_ms : Nat
deriving DecidableEq, Repr

/-- models/digest.py: `Digest` (timestamp omitted: wall-clock time is
external to the embedding). -/
structure Digest where
  articles : List ScoredArticle
  stats : DigestStats
deriving DecidableEq, Repr

/-- graph/graph.py + graph/nodes/{fetch_article,filter,summarize,score,rank,
format}.py: the pipeline from fetched stories to the Digest.  The fan-out
stage produces exactly one Article per story (graph/nodes/fetch_article.py
catches any exception and emits a failed record), which `extract_articles`
already models; `format_digest` truncates the ranked list to
`profile.max_articles` and assembles the stats
(`fetched = len(stories)`, `filtered = len(filtered_articles)`,
`final = len(limited)`).  The error count and generation time are passed
through as parameters (wall clock is external). -/
def pipeline_digest (profile : UserProfile) (stories : List Story)
    (extract_domain : String → Option String) (results : Story → ExtractOutcome)
    (call : List Article → LLMBatchOutcome) (batch_size : Nat)
    (errors generation_time_ms : Nat) : Digest :=
  let articles := extract_articles extract_domain results stories
  let filtered := filter_articles articles
  let summarized := summarize_node call batch_size filtered
  let scored := score_node profile summarized
  let ranked := rank_articles scored
  let limited := ranked.take profile.max_articles
  ⟨limited,
    ⟨stories.length, filtered.length, limited.length, errors, generation_time_ms⟩⟩

theorem score_articles_length_le (svc : ScoringService)
    (articles : List SummarizedArticle) (fb : Bool) :
    (score_articles svc articles fb).length ≤ articles.length := by
  unfold score_articles
  by_cases hemp : articles.isEmpty
  · rw [if_pos hemp]
    exact Nat.zero_le _
  · rw [if_neg hemp]
    unfold sortByFinalDesc
    rw [List.length_mergeSort]
    by_cases hf : fb && decide (svc.profile.min_score > 0)
    · rw [if_pos hf]
      calc (List.filter _ (scoredAll svc articles)).length
          ≤ (scoredAll svc articles).length := (List.filter_sublist _).length_le
        _ = articles.length := List.length_map _ _
    · rw [if_neg hf]
      exact le_of_eq (List.length_map _ _)

theorem summarize_node_length (call : List Article → LLMBatchOutcome)
    (batch_size : Nat) (hbs : 0 < batch_size) (filtered : List Article) :
    (summarize_node call batch_size filtered).length = filtered.length := by
  unfold summarize_node
  by_cases hemp : filtered.isEmpty
  · rw [if_pos hemp, List.isEmpty_iff.mp hemp]
    rfl
  · rw [if_neg hemp]
    exact summarize_articles_batch_length call batch_size hbs filtered

theorem score_node_length_le (profile : UserProfile)
    (summarized : List SummarizedArticle) :
    (score_node profile summarized).length ≤ summarized.length := by
  unfold score_node
  by_cases hemp : summarized.isEmpty
  · rw [if_pos hemp]
    exact Nat.zero_le _
  · rw [if_neg hemp]
    exact score_articles_length_le _ _ _

/-- C7: every Digest produced by a pipeline run satisfies
`stats.fetched ≥ stats.filtered ≥ stats.final`, its article list is exactly
`stats.final` long and never exceeds `profile.max_articles`. -/
theorem c7_digest_stats_monotone (profile : UserProfile) (stories : List Story)
    (extract_domain : String → Option String) (results : Story → ExtractOutcome)
    (call : List Article → LLMBatchOutcome) (batch_size : Nat)
    (hbs : 0 < batch_size) (errors generation_time_ms : Nat) :
    (pipeline_digest profile stories extract_domain results call batch_size
        errors generation_time_ms).stats.filtered ≤
      (pipeline_digest profile stories extract_domain results call batch_size
        errors generation_time_ms).stats.fetched ∧
    (pipeline_digest profile stories extract_domain results call batch_size
        errors generation_time_ms).stats.final ≤
      (pipeline_digest profile stories extract_domain results call batch_size
        errors generation_time_ms).stats.filtered ∧
    (pipeline_digest profile stories extract_domain results call batch_size
        errors generation_time_ms).articles.length ≤ profile.max_articles ∧
    (pipeline_digest profile stories extract_domain results call batch_size
        errors generation_time_ms).articles.length =
      (pipeline_digest profile stories extract_domain results call batch_size
        errors generation_time_ms).stats.final := by
  refine ⟨?_, ?_, ?_, rfl⟩
  · show (filter_articles (extract_articles extract_domain results stories)).length ≤
      stories.length
    calc (filter_articles (extract_articles extract_domain results stories)).length
        ≤ (extract_articles extract_domain results stories).length :=
          (List.filter_sublist _).length_le
      _ = stories.length := extract_articles_length _ _ _
  · show ((rank_articles _).take profile.max_articles).length ≤
      (filter_articles (extract_articles extract_domain results stories)).length
    calc ((rank_articles (score_node profile (summarize_node call batch_size
          (filter_articles (extract_articles extract_domain results
            stories))))).take profile.max_articles).length
        ≤ (rank_articles (score_node profile (summarize_node call batch_size
            (filter_articles (extract_articles extract_domain results
              stories))))).length := by
          rw [List.length_take]
          exact min_le_right _ _
      _ = (score_node profile (summarize_node call batch_size
            (filter_articles (extract_articles extract_domain results
              stories)))).length := List.length_mergeSort _
      _ ≤ (summarize_node call batch_size
            (filter_articles (extract_articles extract_domain results
              stories))).length := score_node_length_le _ _
      _ = (filter_articles (extract_articles extract_domain results
            stories)).length := summarize_node_length call batch_size hbs _
  · show ((rank_articles _).take profile.max_articles).length ≤ profile.max_articles
    rw [List.length_take]
    exact min_le_left _ _

/-- Witness for C7 on a concrete two-story run. -/
theorem c7_digest_stats_monotone_witness :
    (pipeline_digest profileEx [storyA, storyB] (fun _ => none) exOracleEx
        callFailEx 5 0 0).stats.filtered ≤
      (pipeline_digest profileEx [storyA, storyB] (fun _ => none) exOracleEx
        callFailEx 5 0 0).stats.fetched ∧
    (pipeline_digest profileEx [storyA, storyB] (fun _ => none) exOracleEx
        callFailEx 5 0 0).stats.final ≤
      (pipeline_digest profileEx [storyA, storyB] (fun _ => none) exOracleEx
        callFailEx 5 0 0).stats.filtered ∧
    (pipeline_digest profileEx [storyA, storyB] (fun _ => none) exOracleEx
        callFailEx 5 0 0).articles.length ≤ profileEx.max_articles ∧
    (pipeline_digest profileEx [storyA, storyB] (fun _ => none) exOracleEx
        callFailEx 5 0 0).articles.length =
      (pipeline_digest profileEx [storyA, storyB] (fun _ => none) exOracleEx
        callFailEx 5 0 0).stats.final :=
  c7_digest_stats_monotone profileEx [storyA, storyB] (fun _ => none) exOracleEx
    callFailEx 5 (by norm_num) 0 0

end HNHerald
